import Mathlib

/-!
Verification of the read-through caching layer of the techbridge-back
personal-finance API.

The definitions below are a shallow embedding of `src/middleware/cache.js`
(the cache middleware and the invalidation facade), of the mutating
controller flows in `src/controllers/transactionController.js` and the
admin controller, and of the cached route table in `src/routes/*.js` and
the analytics/categories routers.

Response payloads are JSON documents.  The runtime functions
`JSON.stringify` and `JSON.parse` are external library primitives; they
are modelled here by an executable renderer and parser over a JSON AST
(`Jx`).  String escaping covers the quote and backslash characters (the
runtime additionally escapes control characters, which is irrelevant to
the cache-layer properties: any deterministic rendering whose parse is a
left inverse satisfies the same contract).  JSON numbers are modelled as
integers.  Redis is modelled as an association list of key/value/TTL
triples together with a connection flag (`Store`); TTL countdown itself
is not modelled - entries persist until deleted or overwritten, which is
the "no intervening TTL expiry" regime the claims quantify over.
-/

/-- JSON document AST: the payload values handlers pass to `res.json`. -/
inductive Jx where
  | null : Jx
  | jbool : Bool → Jx
  | jnum : Int → Jx
  | jstr : String → Jx
  | jarr : List Jx → Jx
  | jobj : List (String × Jx) → Jx

/-- Decimal digit character for a value below ten. -/
def digitChar (n : Nat) : Char :=
  match n with
  | 0 => '0' | 1 => '1' | 2 => '2' | 3 => '3' | 4 => '4'
  | 5 => '5' | 6 => '6' | 7 => '7' | 8 => '8' | _ => '9'

/-- Reversed decimal digits of a natural number (empty for zero). -/
def natToRev (n : Nat) : List Char :=
  if h : n = 0 then []
  else digitChar (n % 10) :: natToRev (n / 10)
termination_by n
decreasing_by exact Nat.div_lt_self (Nat.pos_of_ne_zero h) (by omega)

/-- Decimal rendering of a natural number, most significant digit first. -/
def renderNat (n : Nat) : List Char :=
  if n = 0 then ['0'] else (natToRev n).reverse

/-- Decimal rendering of an integer, as `JSON.stringify` prints integral numbers. -/
def renderInt (n : Int) : List Char :=
  if n < 0 then '-' :: renderNat n.natAbs else renderNat n.toNat

/-- JSON string-body escaping of quote and backslash. -/
def escape (s : List Char) : List Char :=
  match s with
  | [] => []
  | c :: cs => if c = '"' ∨ c = '\\' then '\\' :: c :: escape cs else c :: escape cs

mutual

/-- Character-level rendering of a JSON document (model of `JSON.stringify`). -/
def render (v : Jx) : List Char :=
  match v with
  | .null => ['n', 'u', 'l', 'l']
  | .jbool true => ['t', 'r', 'u', 'e']
  | .jbool false => ['f', 'a', 'l', 's', 'e']
  | .jnum n => renderInt n
  | .jstr s => '"' :: (escape s.data ++ ['"'])
  | .jarr xs => '[' :: (renderElems xs ++ [']'])
  | .jobj fs => '\x7b' :: (renderFields fs ++ ['\x7d'])

/-- Comma-separated rendering of array elements. -/
def renderElems (xs : List Jx) : List Char :=
  match xs with
  | [] => []
  | [x] => render x
  | x :: xs => render x ++ ',' :: renderElems xs

/-- Comma-separated rendering of object fields. -/
def renderFields (fs : List (String × Jx)) : List Char :=
  match fs with
  | [] => []
  | [(k, v)] => '"' :: (escape k.data ++ '"' :: ':' :: render v)
  | (k, v) :: fs => ('"' :: (escape k.data ++ '"' :: ':' :: render v)) ++ ',' :: renderFields fs

end

mutual

/-- Node count of a JSON document, used as a parsing fuel bound. -/
def jsize (v : Jx) : Nat :=
  match v with
  | .null => 1
  | .jbool _ => 1
  | .jnum _ => 1
  | .jstr _ => 1
  | .jarr xs => jsizeElems xs + 1
  | .jobj fs => jsizeFields fs + 1

/-- Summed node count of array elements. -/
def jsizeElems (xs : List Jx) : Nat :=
  match xs with
  | [] => 0
  | x :: xs => jsize x + jsizeElems xs + 1

/-- Summed node count of object fields. -/
def jsizeFields (fs : List (String × Jx)) : Nat :=
  match fs with
  | [] => 0
  | (_, v) :: fs => jsize v + jsizeFields fs + 1

end

/-- Model of the runtime `JSON.stringify` at `String` level. -/
def stringify (v : Jx) : String :=
  String.mk (render v)

/-- Numeric value of a decimal digit character. -/
def digitVal (c : Char) : Nat := c.toNat - '0'.toNat

/-- Split a character list into its maximal leading run of digits and the rest. -/
def takeDigits (cs : List Char) : List Char × List Char :=
  match cs with
  | [] => ([], [])
  | c :: cs' =>
      if c.isDigit then
        let p := takeDigits cs'
        (c :: p.1, p.2)
      else ([], c :: cs')

/-- Value of a most-significant-first digit list. -/
def digitsToNat (ds : List Char) : Nat :=
  ds.foldl (fun a c => a * 10 + digitVal c) 0

/-- Parse a leading JSON integer literal. -/
def parseNum (cs : List Char) : Option (Int × List Char) :=
  match cs with
  | [] => none
  | c :: rest =>
      if c = '-' then
        match takeDigits rest with
        | ([], _) => none
        | (ds, r) => some (-(digitsToNat ds : Int), r)
      else
        match takeDigits (c :: rest) with
        | ([], _) => none
        | (ds, r) => some ((digitsToNat ds : Int), r)

/-- Parse the body of a JSON string literal after its opening quote,
returning the unescaped characters and the input after the closing quote. -/
def parseStrChars (cs : List Char) : Option (List Char × List Char) :=
  match cs with
  | [] => none
  | c :: rest =>
      if c = '"' then some ([], rest)
      else if c = '\\' then
        match rest with
        | [] => none
        | d :: rest2 =>
            match parseStrChars rest2 with
            | none => none
            | some (s, r) => some (d :: s, r)
      else
        match parseStrChars rest with
        | none => none
        | some (s, r) => some (c :: s, r)

mutual

/-- Fuel-indexed parser for one JSON value (model of `JSON.parse`),
returning the value and the unconsumed input. -/
def parseV (fuel : Nat) (cs : List Char) : Option (Jx × List Char) :=
  match fuel with
  | 0 => none
  | fuel + 1 =>
      match cs with
      | [] => none
      | c :: rest =>
          if c = 'n' then
            match rest with
            | 'u' :: 'l' :: 'l' :: r => some (.null, r)
            | _ => none
          else if c = 't' then
            match rest with
            | 'r' :: 'u' :: 'e' :: r => some (.jbool true, r)
            | _ => none
          else if c = 'f' then
            match rest with
            | 'a' :: 'l' :: 's' :: 'e' :: r => some (.jbool false, r)
            | _ => none
          else if c = '"' then
            match parseStrChars rest with
            | none => none
            | some (s, r) => some (.jstr (String.mk s), r)
          else if c = '[' then
            match parseElems fuel rest with
            | none => none
            | some (xs, r) => some (.jarr xs, r)
          else if c = '\x7b' then
            match parseFields fuel rest with
            | none => none
            | some (fs, r) => some (.jobj fs, r)
          else
            match parseNum (c :: rest) with
            | none => none
            | some (n, r) => some (.jnum n, r)

/-- Parse array elements after the opening bracket, through the closing bracket. -/
def parseElems (fuel : Nat) (cs : List Char) : Option (List Jx × List Char) :=
  match fuel with
  | 0 => none
  | fuel + 1 =>
      match cs with
      | [] => none
      | c :: rest =>
          if c = ']' then some ([], rest)
          else
            match parseV fuel (c :: rest) with
            | none => none
            | some (v, r) =>
                match r with
                | ',' :: r2 =>
                    match parseElems fuel r2 with
                    | none => none
                    | some (xs, r3) => some (v :: xs, r3)
                | ']' :: r2 => some ([v], r2)
                | _ => none

/-- Parse object fields after the opening brace, through the closing brace. -/
def parseFields (fuel : Nat) (cs : List Char) : Option (List (String × Jx) × List Char) :=
  match fuel with
  | 0 => none
  | fuel + 1 =>
      match cs with
      | [] => none
      | c :: rest =>
          if c = '\x7d' then some ([], rest)
          else if c = '"' then
            match parseStrChars rest with
            | none => none
            | some (k, r) =>
                match r with
                | ':' :: r2 =>
                    match parseV fuel r2 with
                    | none => none
                    | some (v, r3) =>
                        match r3 with
                        | ',' :: r4 =>
                            match parseFields fuel r4 with
                            | none => none
                            | some (fs, r5) => some ((String.mk k, v) :: fs, r5)
                        | '\x7d' :: r4 => some ([(String.mk k, v)], r4)
                        | _ => none
                | _ => none
          else none

end

/-- Model of the runtime `JSON.parse` at `String` level: the whole input
must be consumed, otherwise parsing fails (the runtime throws). -/
def parseJson (s : String) : Option Jx :=
  match parseV (s.data.length + 1) s.data with
  | some (v, []) => some v
  | _ => none

/-- Fuel-indexed core of Redis glob matching: each recursive call shrinks
the pattern or the subject, so pattern length plus subject length plus
one is always enough fuel. -/
def globMatchFuel (fuel : Nat) (p : List Char) (s : List Char) : Bool :=
  match fuel with
  | 0 => false
  | fuel + 1 =>
      match p, s with
      | [], [] => true
      | [], _ :: _ => false
      | '*' :: ps, [] => globMatchFuel fuel ps []
      | '*' :: ps, c :: s' =>
          globMatchFuel fuel ps (c :: s') || globMatchFuel fuel ('*' :: ps) s'
      | _ :: _, [] => false
      | q :: ps, c :: s' => q = c && globMatchFuel fuel ps s'

/-- Redis glob matching restricted to the star wildcard, which is the only
wildcard the repository's invalidation patterns use (`KEYS pattern`). -/
def globMatch (p : List Char) (s : List Char) : Bool :=
  globMatchFuel (p.length + s.length + 1) p s

/-- Glob matching at `String` level. -/
def globMatchS (pattern : String) (key : String) : Bool :=
  globMatch pattern.data key.data

/-- Model of the Redis client state: the connection flag (`client.isOpen`)
and the stored entries as key/value/remaining-TTL triples. -/
structure Store where
  isOpen : Bool
  entries : List (String × String × Nat)

/-- Model of `client.get key` on a connected store. -/
def Store.get (s : Store) (k : String) : Option String :=
  match s.entries.find? (fun e => e.1 = k) with
  | none => none
  | some e => some e.2.1

/-- Model of `client.setEx key ttl value`: overwrite-or-insert with a fresh TTL. -/
def Store.setEx (s : Store) (k : String) (ttl : Nat) (v : String) : Store :=
  ⟨s.isOpen, (k, v, ttl) :: s.entries.filter (fun e => e.1 ≠ k)⟩

/-- Model of `client.keys pattern`: the stored keys matching a glob pattern. -/
def Store.keysMatching (s : Store) (pattern : String) : List String :=
  (s.entries.map (fun e => e.1)).filter (fun k => globMatchS pattern k)

/-- Model of `client.del keys`: drop every entry whose key is listed. -/
def Store.delKeys (s : Store) (ks : List String) : Store :=
  ⟨s.isOpen, s.entries.filter (fun e => !ks.contains e.1)⟩

/-- Model of a JavaScript principal id as it can appear in `req.user.id`. -/
inductive JsId where
  | num : Int → JsId
  | str : String → JsId

/-- JavaScript falsiness of an id value (the number 0 and the empty string). -/
def JsId.falsy : JsId → Bool
  | .num n => n = 0
  | .str s => s = ""

/-- String interpolation of an id value into a template literal. -/
def JsId.render : JsId → String
  | .num n => toString n
  | .str s => s

/-- The principal part of a cache key: `req.user?.id || 'anonymous'`
(cache.js line 19) - the id when present and truthy, else the sentinel. -/
def idPart (user : Option JsId) : String :=
  match user with
  | none => "anonymous"
  | some v => if v.falsy then "anonymous" else v.render

/-- Cache key composition (cache.js line 19):
`cache:$\x7breq.originalUrl\x7d:$\x7breq.user?.id || 'anonymous'\x7d`. -/
def cacheKeyOf (originalUrl : String) (user : Option JsId) : String :=
  "cache:" ++ originalUrl ++ ":" ++ idPart user

/-- The request data the cache middleware inspects. -/
structure Request where
  method : String
  originalUrl : String
  user : Option JsId

/-- The cache key the middleware computes for a request. -/
def Request.cacheKey (r : Request) : String :=
  cacheKeyOf r.originalUrl r.user

/-- Fault injection for the remote cache calls: a rejected `client.get`
and a rejected `client.setEx` promise. -/
structure Faults where
  getFails : Bool
  setFails : Bool

/-- Observable outcome of one request through the cache middleware:
the HTTP status and JSON body sent, the resulting store, how many times
the downstream handler ran, how many `client.get` calls were issued, and
whether a cache-related error was logged (`console.error` sites). -/
structure MwOutcome where
  status : Nat
  body : Jx
  store : Store
  handlerCalls : Nat
  reads : Nat
  errored : Bool

/-- The miss path of cacheMiddleware (cache.js lines 29-45): `res.json` is
overridden, the downstream handler runs and finalizes its response, the
override serializes the payload and fires `setEx` (checking `isOpen`
again, line 35); a rejected `setEx` is logged and leaves the store and
the already-sent response untouched (lines 36-38). -/
def missOutcome (ttl : Nat) (key : String) (handler : Nat × Jx) (s : Store) (f : Faults) :
    MwOutcome :=
  { status := handler.1
    body := handler.2
    store := if s.isOpen && !f.setFails then s.setEx key ttl (stringify handler.2) else s
    handlerCalls := 1
    reads := 1
    errored := s.isOpen && f.setFails }

/-- Core of `cacheMiddleware(ttl)` (cache.js lines 4-52) as a function of
the request fields it reads: the method and the computed cache key.
Non-GET requests skip caching (line 7); a closed client skips caching
(line 13); a rejected `get` lands in the catch block and falls through to
the handler with no override installed (lines 46-50); a non-empty cached
value that parses is returned immediately with status 200 and no handler
call (lines 24-27); a cached value that fails `JSON.parse` throws into
the same catch block; otherwise the miss path runs. -/
def cacheMiddlewareCore (ttl : Nat) (method : String) (key : String)
    (handler : Nat × Jx) (s : Store) (f : Faults) : MwOutcome :=
  if method ≠ "GET" then
    { status := handler.1, body := handler.2, store := s,
      handlerCalls := 1, reads := 0, errored := false }
  else if !s.isOpen then
    { status := handler.1, body := handler.2, store := s,
      handlerCalls := 1, reads := 0, errored := false }
  else if f.getFails then
    { status := handler.1, body := handler.2, store := s,
      handlerCalls := 1, reads := 1, errored := true }
  else
    match s.get key with
    | some d =>
        if d = "" then missOutcome ttl key handler s f
        else
          match parseJson d with
          | some v =>
              { status := 200, body := v, store := s,
                handlerCalls := 0, reads := 1, errored := false }
          | none =>
              { status := handler.1, body := handler.2, store := s,
                handlerCalls := 1, reads := 1, errored := true }
    | none => missOutcome ttl key handler s f

/-- One request through `cacheMiddleware(ttl)` in front of a downstream
handler that would finalize `res.status(handler.1).json(handler.2)`. -/
def cacheMiddleware (ttl : Nat) (req : Request) (handler : Nat × Jx)
    (s : Store) (f : Faults) : MwOutcome :=
  cacheMiddlewareCore ttl req.method req.cacheKey handler s f

/-- Whether a run reaches the miss path, i.e. installs the `res.json`
override: a GET on an open client whose `get` resolves to a missing or
empty (falsy) value. -/
def missReached (req : Request) (s : Store) (f : Faults) : Bool :=
  req.method == "GET" && s.isOpen && !f.getFails &&
    (match s.get req.cacheKey with
     | none => true
     | some d => d == "")

/-- Whether a run is a clean cache hit: a GET on an open client whose
`get` resolves to a non-empty value that parses. -/
def hitReached (req : Request) (s : Store) (f : Faults) : Bool :=
  req.method == "GET" && s.isOpen && !f.getFails &&
    (match s.get req.cacheKey with
     | none => false
     | some d => !(d == "") && (parseJson d).isSome)

/-- A store is well formed when every stored value is a parseable JSON
serialization - the invariant the middleware maintains, since it only
ever stores `JSON.stringify` output. -/
def WfStore (s : Store) : Prop :=
  ∀ e ∈ s.entries, ∃ v, parseJson e.2.1 = some v

/-- Model of `clearCache(pattern)` (cache.js lines 55-70): a closed client
is a no-op; otherwise the matching keys are listed and, when there is at
least one, deleted.  The JavaScript function returns `undefined` on every
path - the deleted count is only logged - so the returned value is
modelled as `Option Nat` and is always `none`.  The catch-all swallows
store errors, so the run never throws. -/
def clearCacheRun (s : Store) (pattern : String) : Store × Option Nat :=
  if !s.isOpen then (s, none)
  else if (s.keysMatching pattern).length > 0 then (s.delKeys (s.keysMatching pattern), none)
  else (s, none)

/-- Modelled from the spec: the Key-Value Store Adapter operation
`deleteMatching(pattern) -> count` of section 4.1, which "deletes all
keys matching pattern; returns number deleted".  The repository's
`clearCache` is the corresponding source function; this definition exists
only to compare its return value against the spec's words. -/
def deleteMatchingSpec (s : Store) (pattern : String) : Store × Nat :=
  (s.delKeys (s.keysMatching pattern), (s.keysMatching pattern).length)

/-- Pattern built by `clearUserCache(userId)` (cache.js line 74). -/
def clearUserCachePattern (userId : String) : String :=
  "cache:*:" ++ userId

/-- Pattern built by `clearAnalyticsCache(userId)` (cache.js line 79). -/
def clearAnalyticsCachePattern (userId : String) : String :=
  "cache:*/analytics*:" ++ userId

/-- Pattern built by `clearTransactionCache(userId)` (cache.js line 84). -/
def clearTransactionCachePattern (userId : String) : String :=
  "cache:*/transactions*:" ++ userId

/-- Apply a sequence of `clearCache` calls to a store. -/
def applyClears (s : Store) (patterns : List String) : Store :=
  patterns.foldl (fun st p => (clearCacheRun st p).1) s

/-- Outcome of one mutating controller run: the HTTP status sent, the
`clearCache` patterns invoked (in order), and whether the database
mutation committed. -/
structure MutOutcome where
  status : Nat
  clears : List String
  mutated : Bool

/-- Abstract database/request outcome data for `createTransaction`
(transactionController.js lines 195-277). -/
structure CreateTxInput where
  validationOk : Bool
  requesterId : Nat
  requesterRole : String
  bodyUserId : Option Nat
  targetUserExists : Bool
  categoryType : Option String
  txType : String
  insertOk : Bool

/-- The `targetUserId` of `createTransaction` (lines 209-211): an admin
with a truthy `user_id` in the body redirects the transaction to that
user, otherwise it goes to the requester. -/
def createTxTarget (i : CreateTxInput) : Nat :=
  if i.requesterRole == "admin" && i.bodyUserId.isSome then i.bodyUserId.getD i.requesterId
  else i.requesterId

/-- Control flow of `createTransaction`: validation failure 400; an admin
may redirect the transaction to `user_id` from the body, which must
exist; the category must exist and match the transaction type; a failed
insert throws to the catch block (500) with no invalidation; a committed
insert is followed by `clearTransactionCache(targetUserId)` and
`clearAnalyticsCache(targetUserId)` before the 201 response. -/
def createTransactionRun (i : CreateTxInput) : MutOutcome :=
  if !i.validationOk then ⟨400, [], false⟩
  else if (i.requesterRole == "admin" && i.bodyUserId.isSome) && !i.targetUserExists then
    ⟨400, [], false⟩
  else
    match i.categoryType with
    | none => ⟨400, [], false⟩
    | some ctype =>
        if ctype ≠ i.txType then ⟨400, [], false⟩
        else if !i.insertOk then ⟨500, [], false⟩
        else ⟨201, [clearTransactionCachePattern (toString (createTxTarget i)),
                    clearAnalyticsCachePattern (toString (createTxTarget i))], true⟩

/-- Abstract outcome data for `updateTransaction`
(transactionController.js lines 280-368): `existingOwner` is the owner id
returned by the permission-checked lookup, when it finds a row. -/
structure UpdateTxInput where
  validationOk : Bool
  existingOwner : Option Nat
  categoryType : Option String
  txType : String
  updateOk : Bool

/-- Control flow of `updateTransaction`: after validation, lookup and
category checks, a committed update is followed by the two clears for the
transaction's owner before the 200 response. -/
def updateTransactionRun (i : UpdateTxInput) : MutOutcome :=
  if !i.validationOk then ⟨400, [], false⟩
  else
    match i.existingOwner with
    | none => ⟨404, [], false⟩
    | some owner =>
        match i.categoryType with
        | none => ⟨400, [], false⟩
        | some ctype =>
            if ctype ≠ i.txType then ⟨400, [], false⟩
            else if !i.updateOk then ⟨500, [], false⟩
            else ⟨200, [clearTransactionCachePattern (toString owner),
                        clearAnalyticsCachePattern (toString owner)], true⟩

/-- Abstract outcome data for `deleteTransaction`
(transactionController.js lines 371-410). -/
structure DeleteTxInput where
  existingOwner : Option Nat
  deleteOk : Bool

/-- Control flow of `deleteTransaction`: a committed delete is followed by
the two clears for the transaction's owner before the 200 response. -/
def deleteTransactionRun (i : DeleteTxInput) : MutOutcome :=
  match i.existingOwner with
  | none => ⟨404, [], false⟩
  | some owner =>
      if !i.deleteOk then ⟨500, [], false⟩
      else ⟨200, [clearTransactionCachePattern (toString owner),
                  clearAnalyticsCachePattern (toString owner)], true⟩

/-- Abstract outcome data for the three category mutations
(categoryController, src/controllers/transactionController.js part two,
lines 604-781): `checksOk` folds the per-operation guard chain
(validation, existence, duplicate name, usage count), `dbOk` the
INSERT/UPDATE/DELETE itself. -/
structure CategoryMutInput where
  checksOk : Bool
  dbOk : Bool
  successStatus : Nat

/-- Shared control flow of `createCategory`, `updateCategory` and
`deleteCategory`: every guard failure responds without invalidation; a
committed mutation is followed by `clearCache('cache:*/categories*')`. -/
def categoryMutationRun (i : CategoryMutInput) : MutOutcome :=
  if !i.checksOk then ⟨400, [], false⟩
  else if !i.dbOk then ⟨500, [], false⟩
  else ⟨i.successStatus, ["cache:*/categories*"], true⟩

/-- Abstract outcome data for `deleteUser` (admin controller,
src/unnamed/part_003 lines 279-319). -/
structure DeleteUserInput where
  userExists : Bool
  isSelf : Bool
  deleteOk : Bool

/-- Control flow of `deleteUser`: missing user 404, self-deletion 400, a
failed delete 500; a committed delete (which cascades to the user's
transactions) responds 200.  No `clearCache`/`clearUserCache` call
appears anywhere in the function. -/
def deleteUserRun (i : DeleteUserInput) : MutOutcome :=
  if !i.userExists then ⟨404, [], false⟩
  else if i.isSelf then ⟨400, [], false⟩
  else if !i.deleteOk then ⟨500, [], false⟩
  else ⟨200, [], true⟩

/-- Abstract outcome data for `createUser` (admin controller). -/
structure CreateUserInput where
  validationOk : Bool
  duplicate : Bool
  insertOk : Bool

/-- Control flow of `createUser`: validation 400, duplicate 409, failed
insert 500, committed insert 201.  No invalidation call appears. -/
def createUserRun (i : CreateUserInput) : MutOutcome :=
  if !i.validationOk then ⟨400, [], false⟩
  else if i.duplicate then ⟨409, [], false⟩
  else if !i.insertOk then ⟨500, [], false⟩
  else ⟨201, [], true⟩

/-- Abstract outcome data for `updateUserRole` (admin controller). -/
structure UpdateRoleInput where
  roleValid : Bool
  userExists : Bool
  isSelf : Bool
  updateOk : Bool

/-- Control flow of `updateUserRole`: invalid role 400, missing user 404,
self 400, failed update 500, committed update 200.  No invalidation call
appears. -/
def updateUserRoleRun (i : UpdateRoleInput) : MutOutcome :=
  if !i.roleValid then ⟨400, [], false⟩
  else if !i.userExists then ⟨404, [], false⟩
  else if i.isSelf then ⟨400, [], false⟩
  else if !i.updateOk then ⟨500, [], false⟩
  else ⟨200, [], true⟩

/-- Abstract outcome data for `createTransactionForUser` (admin
controller, src/unnamed/part_003 lines 420-500). -/
structure AdminCreateTxInput where
  validationOk : Bool
  targetUserId : Nat
  targetUserExists : Bool
  categoryType : Option String
  txType : String
  insertOk : Bool

/-- Control flow of `createTransactionForUser`: a committed insert for the
target user is followed by `clearTransactionCache(targetUserId)` and
`clearAnalyticsCache(targetUserId)` before the 201 response. -/
def createTransactionForUserRun (i : AdminCreateTxInput) : MutOutcome :=
  if !i.validationOk then ⟨400, [], false⟩
  else if !i.targetUserExists then ⟨404, [], false⟩
  else
    match i.categoryType with
    | none => ⟨400, [], false⟩
    | some ctype =>
        if ctype ≠ i.txType then ⟨400, [], false⟩
        else if !i.insertOk then ⟨500, [], false⟩
        else ⟨201, [clearTransactionCachePattern (toString i.targetUserId),
                    clearAnalyticsCachePattern (toString i.targetUserId)], true⟩

/-- Resource classes of the spec's TTL conventions (section 6). -/
inductive ResourceClass where
  | transactionsList
  | singleItem
  | categories
  | analytics
  | adminListing
deriving DecidableEq

/-- One cached GET route: router file, path, the TTL passed to
`cacheMiddleware`, and its resource class under the spec's conventions. -/
structure CachedRoute where
  router : String
  path : String
  ttl : Nat
  cls : ResourceClass

/-- Every `cacheMiddleware(n)` attachment in the repository's routers:
routes/transactions.js lines 183, 256, 291; the analytics router lines
107, 154, 211, 279, 349; the categories router lines 452, 491, 526;
routes/admin.js lines 173, 240, 274, 545. -/
def cachedRoutes : List CachedRoute :=
  [⟨"transactions", "/", 300, .transactionsList⟩,
   ⟨"transactions", "/summary", 900, .analytics⟩,
   ⟨"transactions", "/:id", 600, .singleItem⟩,
   ⟨"analytics", "/monthly", 900, .analytics⟩,
   ⟨"analytics", "/yearly", 900, .analytics⟩,
   ⟨"analytics", "/categories", 900, .analytics⟩,
   ⟨"analytics", "/trends", 900, .analytics⟩,
   ⟨"analytics", "/dashboard", 900, .analytics⟩,
   ⟨"categories", "/", 3600, .categories⟩,
   ⟨"categories", "/stats", 900, .analytics⟩,
   ⟨"categories", "/:id", 3600, .categories⟩,
   ⟨"admin", "/users", 300, .adminListing⟩,
   ⟨"admin", "/stats", 600, .adminListing⟩,
   ⟨"admin", "/users/:id", 600, .singleItem⟩,
   ⟨"admin", "/transactions", 300, .adminListing⟩]

/-- The spec's TTL convention for a resource class, in seconds. -/
def ttlConventionOk (r : CachedRoute) : Bool :=
  match r.cls with
  | .transactionsList => r.ttl == 300
  | .singleItem => r.ttl == 600
  | .categories => r.ttl == 3600
  | .analytics => r.ttl == 900
  | .adminListing => 300 ≤ r.ttl && r.ttl ≤ 600

/-- Boundary condition for number parsing: the following input does not
start with a digit, as is the case after any rendered JSON number. -/
def notDigitStart (cs : List Char) : Bool :=
  match cs with
  | [] => true
  | c :: _ => !c.isDigit

theorem isDigit_ne (c : Char) (h : c.isDigit = true) :
    c ≠ 'n' ∧ c ≠ 't' ∧ c ≠ 'f' ∧ c ≠ '"' ∧ c ≠ '[' ∧ c ≠ '\x7b' ∧
      c ≠ '-' ∧ c ≠ ']' ∧ c ≠ ',' ∧ c ≠ ':' ∧ c ≠ '\x7d' := by
  refine ⟨?_, ?_, ?_, ?_, ?_, ?_, ?_, ?_, ?_, ?_, ?_⟩ <;>
    (rintro rfl; revert h; decide)

theorem digitChar_isDigit (k : Nat) : (digitChar k).isDigit = true := by
  unfold digitChar
  split <;> decide

theorem digitVal_digitChar (k : Nat) (h : k < 10) : digitVal (digitChar k) = k := by
  interval_cases k <;> decide

theorem natToRev_mem (n : Nat) : ∀ c ∈ natToRev n, ∃ k, k < 10 ∧ c = digitChar k := by
  induction n using Nat.strong_induction_on with
  | _ n ih =>
    intro c hc
    rw [natToRev] at hc
    split at hc
    · simp at hc
    · rename_i hn
      rcases List.mem_cons.mp hc with h | h
      · exact ⟨n % 10, by omega, h⟩
      · exact ih (n / 10) (Nat.div_lt_self (Nat.pos_of_ne_zero hn) (by omega)) c h

theorem renderNat_digits (n : Nat) : ∀ c ∈ renderNat n, c.isDigit = true := by
  intro c hc
  unfold renderNat at hc
  split at hc
  · simp at hc
    subst hc
    decide
  · rw [List.mem_reverse] at hc
    obtain ⟨k, _, rfl⟩ := natToRev_mem n c hc
    exact digitChar_isDigit k

theorem renderNat_ne_nil (n : Nat) : renderNat n ≠ [] := by
  unfold renderNat
  split
  · simp
  · rename_i hn
    rw [natToRev]
    rw [dif_neg hn]
    simp

theorem takeDigits_append (ds rest : List Char)
    (hds : ∀ c ∈ ds, c.isDigit = true) (hrest : notDigitStart rest = true) :
    takeDigits (ds ++ rest) = (ds, rest) := by
  induction ds with
  | nil =>
    cases rest with
    | nil => rfl
    | cons c r =>
      simp only [notDigitStart, Bool.not_eq_true'] at hrest
      simp [takeDigits, hrest]
  | cons d ds ih =>
    have hd : d.isDigit = true := hds d (by simp)
    simp only [List.cons_append, takeDigits, hd, if_true, List.append_eq]
    rw [ih (fun c hc => hds c (by simp [hc]))]

theorem digitsToNat_append_singleton (xs : List Char) (c : Char) :
    digitsToNat (xs ++ [c]) = digitsToNat xs * 10 + digitVal c := by
  simp [digitsToNat, List.foldl_append]

theorem digitsToNat_natToRev (n : Nat) : digitsToNat (natToRev n).reverse = n := by
  induction n using Nat.strong_induction_on with
  | _ n ih =>
    rw [natToRev]
    split
    · rename_i hn
      subst hn
      rfl
    · rename_i hn
      rw [List.reverse_cons, digitsToNat_append_singleton,
        ih (n / 10) (Nat.div_lt_self (Nat.pos_of_ne_zero hn) (by omega)),
        digitVal_digitChar (n % 10) (by omega)]
      omega

theorem digitsToNat_renderNat (n : Nat) : digitsToNat (renderNat n) = n := by
  unfold renderNat
  split
  · rename_i hn
    subst hn
    decide
  · exact digitsToNat_natToRev n

theorem parseNum_render (n : Int) (rest : List Char) (hrest : notDigitStart rest = true) :
    parseNum (renderInt n ++ rest) = some (n, rest) := by
  unfold renderInt
  split
  · rename_i hneg
    have hx : takeDigits (renderNat n.natAbs ++ rest) = (renderNat n.natAbs, rest) :=
      takeDigits_append _ _ (renderNat_digits n.natAbs) hrest
    obtain ⟨c, t, hct⟩ := List.exists_cons_of_ne_nil (renderNat_ne_nil n.natAbs)
    rw [hct] at hx
    rw [show ('-' :: renderNat n.natAbs) ++ rest = '-' :: (renderNat n.natAbs ++ rest) from rfl,
      hct]
    simp only [parseNum, List.cons_append, if_pos]
    rw [show (c :: t) ++ rest = c :: (t ++ rest) from rfl] at hx
    rw [hx]
    show some (-((digitsToNat (c :: t) : Nat) : Int), rest) = some (n, rest)
    rw [show c :: t = renderNat n.natAbs from hct.symm, digitsToNat_renderNat]
    rw [show -((n.natAbs : Nat) : Int) = n by omega]
  · rename_i hpos
    have hx : takeDigits (renderNat n.toNat ++ rest) = (renderNat n.toNat, rest) :=
      takeDigits_append _ _ (renderNat_digits n.toNat) hrest
    obtain ⟨c, t, hct⟩ := List.exists_cons_of_ne_nil (renderNat_ne_nil n.toNat)
    have hcd : c.isDigit = true := renderNat_digits n.toNat c (by rw [hct]; simp)
    rw [hct] at hx
    rw [hct]
    simp only [List.cons_append, parseNum]
    rw [if_neg (isDigit_ne c hcd).2.2.2.2.2.2.1]
    rw [show (c :: t) ++ rest = c :: (t ++ rest) from rfl] at hx
    rw [hx]
    show some (((digitsToNat (c :: t) : Nat) : Int), rest) = some (n, rest)
    rw [show c :: t = renderNat n.toNat from hct.symm, digitsToNat_renderNat]
    rw [show ((n.toNat : Nat) : Int) = n by omega]

theorem parseStrChars_escape (s rest : List Char) :
    parseStrChars (escape s ++ '"' :: rest) = some (s, rest) := by
  induction s with
  | nil =>
    show parseStrChars ('"' :: rest) = some ([], rest)
    rw [parseStrChars.eq_def]
    simp
  | cons c cs ih =>
    by_cases hc : c = '"' ∨ c = '\\'
    · rw [escape, if_pos hc]
      show parseStrChars ('\\' :: c :: (escape cs ++ '"' :: rest)) = some (c :: cs, rest)
      rw [parseStrChars.eq_def]
      simp [ih]
    · rw [escape, if_neg hc]
      push_neg at hc
      show parseStrChars (c :: (escape cs ++ '"' :: rest)) = some (c :: cs, rest)
      rw [parseStrChars.eq_def]
      simp [hc.1, hc.2, ih]

theorem render_head (v : Jx) :
    ∃ c t, render v = c :: t ∧ c ≠ ']' ∧ c ≠ ',' ∧ c ≠ ':' ∧ c ≠ '\x7d' := by
  cases v with
  | null => exact ⟨'n', _, rfl, by decide, by decide, by decide, by decide⟩
  | jbool b =>
    cases b with
    | true => exact ⟨'t', _, rfl, by decide, by decide, by decide, by decide⟩
    | false => exact ⟨'f', _, rfl, by decide, by decide, by decide, by decide⟩
  | jnum n =>
    show ∃ c t, renderInt n = c :: t ∧ _
    unfold renderInt
    split
    · exact ⟨'-', _, rfl, by decide, by decide, by decide, by decide⟩
    · obtain ⟨c, t, hct⟩ := List.exists_cons_of_ne_nil (renderNat_ne_nil n.toNat)
      have hcd : c.isDigit = true := renderNat_digits n.toNat c (by rw [hct]; simp)
      obtain ⟨_, _, _, _, _, _, _, h8, h9, h10, h11⟩ := isDigit_ne c hcd
      exact ⟨c, t, hct, h8, h9, h10, h11⟩
  | jstr s => exact ⟨'"', _, rfl, by decide, by decide, by decide, by decide⟩
  | jarr xs => exact ⟨'[', _, rfl, by decide, by decide, by decide, by decide⟩
  | jobj fs => exact ⟨'\x7b', _, rfl, by decide, by decide, by decide, by decide⟩

theorem parseV_num (fuel : Nat) (n : Int) (rest : List Char)
    (hrest : notDigitStart rest = true) :
    parseV (fuel + 1) (renderInt n ++ rest) = some (.jnum n, rest) := by
  have hp := parseNum_render n rest hrest
  by_cases hneg : n < 0
  · have h1 : renderInt n = '-' :: renderNat n.natAbs := by rw [renderInt, if_pos hneg]
    rw [h1] at hp ⊢
    rw [show ('-' :: renderNat n.natAbs) ++ rest = '-' :: (renderNat n.natAbs ++ rest) from rfl]
      at hp ⊢
    rw [parseV.eq_def]
    simp only [if_neg (show ¬('-' : Char) = 'n' by decide),
      if_neg (show ¬('-' : Char) = 't' by decide),
      if_neg (show ¬('-' : Char) = 'f' by decide),
      if_neg (show ¬('-' : Char) = '"' by decide),
      if_neg (show ¬('-' : Char) = '[' by decide),
      if_neg (show ¬('-' : Char) = '\x7b' by decide)]
    rw [hp]
  · have h1 : renderInt n = renderNat n.toNat := by rw [renderInt, if_neg hneg]
    obtain ⟨c, t, hct⟩ := List.exists_cons_of_ne_nil (renderNat_ne_nil n.toNat)
    have hcd : c.isDigit = true := renderNat_digits n.toNat c (by rw [hct]; simp)
    obtain ⟨d1, d2, d3, d4, d5, d6, _, _, _, _, _⟩ := isDigit_ne c hcd
    rw [h1, hct] at hp ⊢
    rw [show (c :: t) ++ rest = c :: (t ++ rest) from rfl] at hp ⊢
    rw [parseV.eq_def]
    simp only [if_neg d1, if_neg d2, if_neg d3, if_neg d4, if_neg d5, if_neg d6]
    rw [hp]

theorem parse_render_all (fuel : Nat) :
    (∀ v rest, jsize v < fuel → notDigitStart rest = true →
      parseV fuel (render v ++ rest) = some (v, rest)) ∧
    (∀ xs rest, jsizeElems xs < fuel →
      parseElems fuel (renderElems xs ++ ']' :: rest) = some (xs, rest)) ∧
    (∀ fs rest, jsizeFields fs < fuel →
      parseFields fuel (renderFields fs ++ '\x7d' :: rest) = some (fs, rest)) := by
  induction fuel with
  | zero =>
    exact ⟨fun _ _ h => absurd h (Nat.not_lt_zero _),
      fun _ _ h => absurd h (Nat.not_lt_zero _),
      fun _ _ h => absurd h (Nat.not_lt_zero _)⟩
  | succ fuel ih =>
    obtain ⟨ihV, ihE, ihF⟩ := ih
    refine ⟨?_, ?_, ?_⟩
    · intro v rest hsz hrest
      cases v with
      | null =>
        show parseV (fuel + 1) ('n' :: 'u' :: 'l' :: 'l' :: rest) = some (.null, rest)
        rw [parseV.eq_def]
        simp
      | jbool b =>
        cases b with
        | true =>
          show parseV (fuel + 1) ('t' :: 'r' :: 'u' :: 'e' :: rest) = some (.jbool true, rest)
          rw [parseV.eq_def]
          simp
        | false =>
          show parseV (fuel + 1) ('f' :: 'a' :: 'l' :: 's' :: 'e' :: rest) =
            some (.jbool false, rest)
          rw [parseV.eq_def]
          simp
      | jnum n => exact parseV_num fuel n rest hrest
      | jstr s =>
        obtain ⟨sd⟩ := s
        have e1 := parseStrChars_escape sd rest
        show parseV (fuel + 1) (('"' :: (escape sd ++ ['"'])) ++ rest) =
          some (.jstr (String.mk sd), rest)
        rw [show ('"' :: (escape sd ++ ['"'])) ++ rest = '"' :: (escape sd ++ '"' :: rest) by
          simp]
        rw [parseV.eq_def]
        simp [e1]
      | jarr xs =>
        have hsz' : jsizeElems xs < fuel := by
          simp only [jsize] at hsz
          omega
        have e1 := ihE xs rest hsz'
        show parseV (fuel + 1) (('[' :: (renderElems xs ++ [']'])) ++ rest) =
          some (.jarr xs, rest)
        rw [show ('[' :: (renderElems xs ++ [']'])) ++ rest =
          '[' :: (renderElems xs ++ ']' :: rest) by simp]
        rw [parseV.eq_def]
        simp [e1]
      | jobj fs =>
        have hsz' : jsizeFields fs < fuel := by
          simp only [jsize] at hsz
          omega
        have e1 := ihF fs rest hsz'
        show parseV (fuel + 1) (('\x7b' :: (renderFields fs ++ ['\x7d'])) ++ rest) =
          some (.jobj fs, rest)
        rw [show ('\x7b' :: (renderFields fs ++ ['\x7d'])) ++ rest =
          '\x7b' :: (renderFields fs ++ '\x7d' :: rest) by simp]
        rw [parseV.eq_def]
        simp [e1]
    · intro xs rest hsz
      cases xs with
      | nil =>
        show parseElems (fuel + 1) (']' :: rest) = some ([], rest)
        rw [parseElems.eq_def]
        simp
      | cons x xs' =>
        obtain ⟨c, t, hct, hc1, hc2, hc3, hc4⟩ := render_head x
        cases xs' with
        | nil =>
          have hszx : jsize x < fuel := by
            simp only [jsizeElems] at hsz
            omega
          have e1 : parseV fuel (render x ++ ']' :: rest) = some (x, ']' :: rest) :=
            ihV x (']' :: rest) hszx (by rfl)
          show parseElems (fuel + 1) (render x ++ ']' :: rest) = some ([x], rest)
          rw [hct, show (c :: t) ++ ']' :: rest = c :: (t ++ ']' :: rest) from rfl]
          rw [parseElems.eq_def]
          simp only [if_neg hc1]
          rw [show c :: (t ++ ']' :: rest) = render x ++ ']' :: rest by rw [hct]; rfl]
          simp [e1]
        | cons y ys =>
          have hszx : jsize x < fuel := by
            simp only [jsizeElems] at hsz
            omega
          have hszys : jsizeElems (y :: ys) < fuel := by
            simp only [jsizeElems] at hsz ⊢
            omega
          have e1 : parseV fuel (render x ++ ',' :: (renderElems (y :: ys) ++ ']' :: rest)) =
              some (x, ',' :: (renderElems (y :: ys) ++ ']' :: rest)) :=
            ihV x (',' :: (renderElems (y :: ys) ++ ']' :: rest)) hszx (by rfl)
          have e2 : parseElems fuel (renderElems (y :: ys) ++ ']' :: rest) =
              some (y :: ys, rest) :=
            ihE (y :: ys) rest hszys
          show parseElems (fuel + 1)
            ((render x ++ ',' :: renderElems (y :: ys)) ++ ']' :: rest) =
            some (x :: y :: ys, rest)
          rw [show (render x ++ ',' :: renderElems (y :: ys)) ++ ']' :: rest =
            render x ++ ',' :: (renderElems (y :: ys) ++ ']' :: rest) by simp]
          rw [hct, show (c :: t) ++ ',' :: (renderElems (y :: ys) ++ ']' :: rest) =
            c :: (t ++ ',' :: (renderElems (y :: ys) ++ ']' :: rest)) from rfl]
          rw [parseElems.eq_def]
          simp only [if_neg hc1]
          rw [show c :: (t ++ ',' :: (renderElems (y :: ys) ++ ']' :: rest)) =
            render x ++ ',' :: (renderElems (y :: ys) ++ ']' :: rest) by rw [hct]; rfl]
          simp [e1, e2]
    · intro fs rest hsz
      cases fs with
      | nil =>
        show parseFields (fuel + 1) ('\x7d' :: rest) = some ([], rest)
        rw [parseFields.eq_def]
        simp
      | cons f fs' =>
        obtain ⟨k, v⟩ := f
        obtain ⟨kd⟩ := k
        cases fs' with
        | nil =>
          have hszv : jsize v < fuel := by
            simp only [jsizeFields] at hsz
            omega
          have e1 := parseStrChars_escape kd (':' :: (render v ++ '\x7d' :: rest))
          have e2 : parseV fuel (render v ++ '\x7d' :: rest) = some (v, '\x7d' :: rest) :=
            ihV v ('\x7d' :: rest) hszv (by rfl)
          show parseFields (fuel + 1)
            (('"' :: (escape kd ++ '"' :: ':' :: render v)) ++ '\x7d' :: rest) =
            some ([(String.mk kd, v)], rest)
          rw [show ('"' :: (escape kd ++ '"' :: ':' :: render v)) ++ '\x7d' :: rest =
            '"' :: (escape kd ++ '"' :: ':' :: (render v ++ '\x7d' :: rest)) by simp]
          rw [parseFields.eq_def]
          simp [e1, e2]
        | cons g gs =>
          have hszv : jsize v < fuel := by
            simp only [jsizeFields] at hsz
            omega
          have hszgs : jsizeFields (g :: gs) < fuel := by
            simp only [jsizeFields] at hsz ⊢
            omega
          have e1 := parseStrChars_escape kd
            (':' :: (render v ++ ',' :: (renderFields (g :: gs) ++ '\x7d' :: rest)))
          have e2 : parseV fuel (render v ++ ',' :: (renderFields (g :: gs) ++ '\x7d' :: rest)) =
              some (v, ',' :: (renderFields (g :: gs) ++ '\x7d' :: rest)) :=
            ihV v (',' :: (renderFields (g :: gs) ++ '\x7d' :: rest)) hszv (by rfl)
          have e3 : parseFields fuel (renderFields (g :: gs) ++ '\x7d' :: rest) =
              some (g :: gs, rest) :=
            ihF (g :: gs) rest hszgs
          show parseFields (fuel + 1)
            ((('"' :: (escape kd ++ '"' :: ':' :: render v)) ++
              ',' :: renderFields (g :: gs)) ++ '\x7d' :: rest) =
            some ((String.mk kd, v) :: g :: gs, rest)
          rw [show (('"' :: (escape kd ++ '"' :: ':' :: render v)) ++
              ',' :: renderFields (g :: gs)) ++ '\x7d' :: rest =
            '"' :: (escape kd ++ '"' :: ':' ::
              (render v ++ ',' :: (renderFields (g :: gs) ++ '\x7d' :: rest))) by simp]
          rw [parseFields.eq_def]
          simp [e1, e2, e3]

theorem jsize_pos (v : Jx) : 1 ≤ jsize v := by
  cases v <;> simp [jsize]

theorem renderInt_ne_nil (n : Int) : renderInt n ≠ [] := by
  unfold renderInt
  split
  · simp
  · exact renderNat_ne_nil n.toNat

theorem jsize_le_render (N : Nat) :
    (∀ v, jsize v ≤ N → jsize v ≤ (render v).length) ∧
    (∀ xs, jsizeElems xs ≤ N → jsizeElems xs ≤ (renderElems xs).length + 1) ∧
    (∀ fs, jsizeFields fs ≤ N → jsizeFields fs ≤ (renderFields fs).length + 1) := by
  induction N with
  | zero =>
    refine ⟨fun v h => absurd h (by have := jsize_pos v; omega), fun xs h => ?_, fun fs h => ?_⟩
    · cases xs with
      | nil => simp [jsizeElems]
      | cons x xs' =>
        simp only [jsizeElems] at h
        omega
    · cases fs with
      | nil => simp [jsizeFields]
      | cons f fs' =>
        obtain ⟨k, v⟩ := f
        simp only [jsizeFields] at h
        omega
  | succ N ih =>
    obtain ⟨ihV, ihE, ihF⟩ := ih
    refine ⟨fun v h => ?_, fun xs h => ?_, fun fs h => ?_⟩
    · cases v with
      | null => simp [jsize, render]
      | jbool b => cases b <;> simp [jsize, render]
      | jnum n =>
        have : 0 < (renderInt n).length := List.length_pos.mpr (renderInt_ne_nil n)
        simp only [jsize, render]
        omega
      | jstr s =>
        simp [jsize, render]
      | jarr xs =>
        simp only [jsize] at h ⊢
        have := ihE xs (by omega)
        simp only [render, List.length_cons, List.length_append, List.length_singleton]
        omega
      | jobj fs =>
        simp only [jsize] at h ⊢
        have := ihF fs (by omega)
        simp only [render, List.length_cons, List.length_append, List.length_singleton]
        omega
    · cases xs with
      | nil => simp [jsizeElems]
      | cons x xs' =>
        cases xs' with
        | nil =>
          simp only [jsizeElems] at h ⊢
          have := ihV x (by omega)
          simp only [renderElems]
          omega
        | cons y ys =>
          simp only [jsizeElems] at h ⊢
          have h1 := ihV x (by omega)
          have h2 := ihE (y :: ys) (by simp only [jsizeElems]; omega)
          simp only [jsizeElems] at h2
          simp only [renderElems, List.length_append, List.length_cons]
          omega
    · cases fs with
      | nil => simp [jsizeFields]
      | cons f fs' =>
        obtain ⟨k, v⟩ := f
        cases fs' with
        | nil =>
          simp only [jsizeFields] at h ⊢
          have := ihV v (by omega)
          simp only [renderFields, List.length_cons, List.length_append]
          omega
        | cons g gs =>
          obtain ⟨k2, v2⟩ := g
          simp only [jsizeFields] at h ⊢
          have h1 := ihV v (by omega)
          have h2 := ihF ((k2, v2) :: gs) (by simp only [jsizeFields]; omega)
          simp only [jsizeFields] at h2
          simp only [renderFields, List.length_append, List.length_cons]
          omega

/-- The runtime codec contract the middleware relies on: parsing a
serialized payload recovers the payload. -/
theorem parseJson_stringify (v : Jx) : parseJson (stringify v) = some v := by
  unfold parseJson stringify
  have hdata : (String.mk (render v)).data = render v := rfl
  rw [hdata]
  have hsz : jsize v ≤ (render v).length :=
    (jsize_le_render (jsize v)).1 v (le_refl _)
  have h := (parse_render_all ((render v).length + 1)).1 v [] (by omega) (by rfl)
  rw [List.append_nil] at h
  rw [h]

/-- A serialized payload is never the empty string, so a stored entry is
never falsy on the hit check (cache.js line 24). -/
theorem stringify_ne_empty (v : Jx) : stringify v ≠ "" := by
  obtain ⟨c, t, hct, _⟩ := render_head v
  unfold stringify
  rw [hct]
  intro h
  have := congrArg String.data h
  simp at this

theorem parseJson_empty : parseJson "" = none := rfl


theorem Store.get_setEx_self (s : Store) (k : String) (ttl : Nat) (v : String) :
    (s.setEx k ttl v).get k = some v := by
  unfold Store.setEx Store.get
  rw [List.find?_cons_of_pos _ (by simp)]

theorem Store.setEx_isOpen (s : Store) (k : String) (ttl : Nat) (v : String) :
    (s.setEx k ttl v).isOpen = s.isOpen := rfl

theorem Store.mem_keysMatching (s : Store) (p k : String) :
    k ∈ s.keysMatching p ↔ ((∃ e ∈ s.entries, e.1 = k) ∧ globMatchS p k = true) := by
  unfold Store.keysMatching
  rw [List.mem_filter]
  constructor
  · rintro ⟨hmem, hg⟩
    obtain ⟨e, he, hek⟩ := List.mem_map.mp hmem
    exact ⟨⟨e, he, hek⟩, by simpa using hg⟩
  · rintro ⟨⟨e, he, hek⟩, hg⟩
    exact ⟨List.mem_map.mpr ⟨e, he, hek⟩, by simpa using hg⟩

theorem find?_filter_keep {α} (l : List α) (pr q : α → Bool)
    (h : ∀ e, pr e = true → q e = true) :
    (l.filter q).find? pr = l.find? pr := by
  induction l with
  | nil => rfl
  | cons a l ih =>
    by_cases hq : q a = true
    · rw [List.filter_cons_of_pos hq]
      by_cases hp : pr a = true
      · rw [List.find?_cons_of_pos _ hp, List.find?_cons_of_pos _ hp]
      · rw [List.find?_cons_of_neg _ (by simp [hp]), List.find?_cons_of_neg _ (by simp [hp]), ih]
    · rw [List.filter_cons_of_neg (by simp [hq])]
      have hp : pr a = false := by
        by_contra hc
        rw [Bool.not_eq_false] at hc
        exact absurd (h a hc) hq
      rw [List.find?_cons_of_neg _ (by simp [hp]), ih]

theorem Store.get_delKeys_mem (s : Store) (ks : List String) (k : String)
    (hk : ks.contains k = true) : (s.delKeys ks).get k = none := by
  unfold Store.delKeys Store.get
  rw [List.find?_eq_none.mpr]
  intro e he
  rw [List.mem_filter] at he
  simp only [decide_eq_true_eq]
  intro hek
  have := he.2
  rw [hek, hk] at this
  simp at this

theorem Store.get_delKeys_not_mem (s : Store) (ks : List String) (k : String)
    (hk : ks.contains k = false) : (s.delKeys ks).get k = s.get k := by
  unfold Store.delKeys Store.get
  rw [find?_filter_keep]
  intro e he
  simp only [decide_eq_true_eq] at he
  rw [he, hk]
  rfl

theorem clearCacheRun_fst (s : Store) (p : String) :
    (clearCacheRun s p).1 = if s.isOpen then s.delKeys (s.keysMatching p) else s := by
  unfold clearCacheRun
  cases ho : s.isOpen with
  | false => simp
  | true =>
    simp only [Bool.not_true, Bool.false_eq_true, if_false, if_true]
    split
    · rfl
    · rename_i hlen
      have hempty : s.keysMatching p = [] := by
        cases h : s.keysMatching p with
        | nil => rfl
        | cons a l =>
          rw [h] at hlen
          simp at hlen
      unfold Store.delKeys
      rw [hempty]
      cases s with
      | mk o es => simp [List.filter]

theorem clearCacheRun_isOpen (s : Store) (p : String) :
    ((clearCacheRun s p).1).isOpen = s.isOpen := by
  rw [clearCacheRun_fst]
  split <;> rfl

theorem clearCacheRun_get_matching (s : Store) (p k : String)
    (hopen : s.isOpen = true) (hm : globMatchS p k = true) :
    ((clearCacheRun s p).1).get k = none := by
  rw [clearCacheRun_fst, if_pos hopen]
  cases hc : (s.keysMatching p).contains k with
  | true => exact Store.get_delKeys_mem s _ k hc
  | false =>
    rw [Store.get_delKeys_not_mem s _ k hc]
    cases hf : s.get k with
    | none => rfl
    | some v =>
      unfold Store.get at hf
      cases hfind : s.entries.find? (fun e => e.1 = k) with
      | none =>
        rw [hfind] at hf
        simp at hf
      | some e =>
        have hek : e.1 = k := by
          have := List.find?_some hfind
          simpa using this
        have hmem : k ∈ s.keysMatching p :=
          (Store.mem_keysMatching s p k).mpr
            ⟨⟨e, List.mem_of_find?_eq_some hfind, hek⟩, hm⟩
        rw [← List.elem_iff] at hmem
        rw [show (s.keysMatching p).contains k = (s.keysMatching p).elem k from rfl] at hc
        rw [hmem] at hc
        cases hc

theorem clearCacheRun_get_none (s : Store) (p k : String)
    (h : s.get k = none) : ((clearCacheRun s p).1).get k = none := by
  rw [clearCacheRun_fst]
  split
  · cases hc : (s.keysMatching p).contains k with
    | true => exact Store.get_delKeys_mem s _ k hc
    | false => rw [Store.get_delKeys_not_mem s _ k hc, h]
  · exact h

theorem clearCacheRun_entry_preserved (s : Store) (p : String) (e : String × String × Nat)
    (he : e ∈ s.entries) (hnm : globMatchS p e.1 = false) :
    e ∈ ((clearCacheRun s p).1).entries := by
  rw [clearCacheRun_fst]
  split
  · unfold Store.delKeys
    rw [List.mem_filter]
    refine ⟨he, ?_⟩
    cases hc : (s.keysMatching p).contains e.1 with
    | false => rfl
    | true =>
      have hmem : e.1 ∈ s.keysMatching p := List.elem_iff.mp hc
      have := (Store.mem_keysMatching s p e.1).mp hmem
      rw [this.2] at hnm
      cases hnm
  · exact he

theorem clearCacheRun_zero_matches (s : Store) (p : String)
    (h : s.keysMatching p = []) : (clearCacheRun s p).1 = s := by
  unfold clearCacheRun
  split
  · rfl
  · rw [h]
    simp

theorem clearCacheRun_returns_none (s : Store) (p : String) :
    (clearCacheRun s p).2 = none := by
  unfold clearCacheRun
  split
  · rfl
  · split <;> rfl

theorem colon_split_first (x : List Char) : ∀ (y xs ys : List Char),
    ':' ∉ x → ':' ∉ y → x ++ ':' :: xs = y ++ ':' :: ys → x = y ∧ xs = ys := by
  induction x with
  | nil =>
    intro y xs ys _ hy h
    cases y with
    | nil => simpa using h
    | cons d y' =>
      simp only [List.nil_append, List.cons_append, List.cons.injEq] at h
      obtain ⟨hd, -⟩ := h
      subst hd
      exact absurd (List.mem_cons_self ':' y') hy
  | cons c x' ih =>
    intro y xs ys hx hy h
    cases y with
    | nil =>
      simp only [List.cons_append, List.nil_append, List.cons.injEq] at h
      obtain ⟨hc, -⟩ := h
      subst hc
      exact absurd (List.mem_cons_self ':' x') hx
    | cons d y' =>
      simp only [List.cons_append, List.cons.injEq] at h
      obtain ⟨hcd, hrest⟩ := h
      have hx' : ':' ∉ x' := fun hm => hx (List.mem_cons_of_mem c hm)
      have hy' : ':' ∉ y' := fun hm => hy (List.mem_cons_of_mem d hm)
      obtain ⟨he, hs⟩ := ih y' xs ys hx' hy' hrest
      exact ⟨by rw [hcd, he], hs⟩

theorem reverse_append_colon (u p : List Char) :
    (u ++ ':' :: p).reverse = p.reverse ++ ':' :: u.reverse := by
  simp [List.reverse_append]

theorem colon_split_last (u1 u2 p1 p2 : List Char)
    (hp1 : ':' ∉ p1) (hp2 : ':' ∉ p2)
    (h : u1 ++ ':' :: p1 = u2 ++ ':' :: p2) : u1 = u2 ∧ p1 = p2 := by
  have hrev := congrArg List.reverse h
  rw [reverse_append_colon, reverse_append_colon] at hrev
  have h1 : ':' ∉ p1.reverse := by rwa [List.mem_reverse]
  have h2 : ':' ∉ p2.reverse := by rwa [List.mem_reverse]
  obtain ⟨hp, hu⟩ := colon_split_first p1.reverse p2.reverse u1.reverse u2.reverse h1 h2 hrev
  constructor
  · rw [← List.reverse_reverse u1, ← List.reverse_reverse u2, hu]
  · rw [← List.reverse_reverse p1, ← List.reverse_reverse p2, hp]

theorem cacheKeyOf_inj (u1 u2 : String) (i1 i2 : Option JsId)
    (h1 : ':' ∉ (idPart i1).data) (h2 : ':' ∉ (idPart i2).data) :
    (cacheKeyOf u1 i1 = cacheKeyOf u2 i2) ↔ (u1 = u2 ∧ idPart i1 = idPart i2) := by
  constructor
  · intro h
    have hd := congrArg String.data h
    unfold cacheKeyOf at hd
    simp only [String.data_append, List.append_assoc] at hd
    simp only [List.singleton_append, List.cons_append, List.nil_append] at hd
    simp only [List.cons.injEq, eq_self_iff_true, true_and] at hd
    have hd' := hd
    obtain ⟨hu, hp⟩ := colon_split_last u1.data u2.data _ _ h1 h2 hd'
    constructor
    · cases u1
      cases u2
      exact congrArg String.mk hu
    · cases hi1 : idPart i1
      cases hi2 : idPart i2
      rw [hi1, hi2] at hp
      exact congrArg String.mk hp
  · rintro ⟨rfl, hp⟩
    unfold cacheKeyOf
    rw [hp]

theorem applyClears_two_get_none (s : Store) (p1 p2 k : String) (hopen : s.isOpen = true)
    (hm : globMatchS p1 k = true ∨ globMatchS p2 k = true) :
    (applyClears s [p1, p2]).get k = none := by
  unfold applyClears
  simp only [List.foldl]
  rcases hm with hm | hm
  · exact clearCacheRun_get_none _ p2 k (clearCacheRun_get_matching s p1 k hopen hm)
  · exact clearCacheRun_get_matching _ p2 k (by rw [clearCacheRun_isOpen]; exact hopen) hm

theorem cacheMiddleware_cases (ttl : Nat) (req : Request) (handler : Nat × Jx)
    (s : Store) (f : Faults) :
    (cacheMiddleware ttl req handler s f = ⟨handler.1, handler.2, s, 1, 0, false⟩ ∧
      (req.method ≠ "GET" ∨ s.isOpen = false)) ∨
    (cacheMiddleware ttl req handler s f = ⟨handler.1, handler.2, s, 1, 1, true⟩ ∧
      req.method = "GET" ∧ s.isOpen = true ∧
      (f.getFails = true ∨
        ∃ d, s.get req.cacheKey = some d ∧ d ≠ "" ∧ parseJson d = none)) ∨
    (∃ d v, s.get req.cacheKey = some d ∧ d ≠ "" ∧ parseJson d = some v ∧
      cacheMiddleware ttl req handler s f = ⟨200, v, s, 0, 1, false⟩ ∧
      req.method = "GET" ∧ s.isOpen = true ∧ f.getFails = false) ∨
    (cacheMiddleware ttl req handler s f = missOutcome ttl req.cacheKey handler s f ∧
      req.method = "GET" ∧ s.isOpen = true ∧ f.getFails = false ∧
      (s.get req.cacheKey = none ∨ s.get req.cacheKey = some "")) := by
  unfold cacheMiddleware cacheMiddlewareCore
  by_cases h1 : req.method ≠ "GET"
  · left
    exact ⟨by rw [if_pos h1], Or.inl h1⟩
  · push_neg at h1
    rw [if_neg (by simp [h1])]
    cases ho : s.isOpen with
    | false =>
      left
      exact ⟨by simp, Or.inr rfl⟩
    | true =>
      rw [if_neg (by simp)]
      cases hgf : f.getFails with
      | true =>
        right; left
        exact ⟨by simp, h1, rfl, Or.inl rfl⟩
      | false =>
        rw [if_neg (by simp)]
        cases hg : s.get req.cacheKey with
        | none =>
          right; right; right
          exact ⟨rfl, h1, rfl, rfl, Or.inl rfl⟩
        | some d =>
          by_cases hde : d = ""
          · subst hde
            right; right; right
            exact ⟨by simp, h1, rfl, rfl, Or.inr rfl⟩
          · cases hp : parseJson d with
            | none =>
              right; left
              exact ⟨by simp [hde, hp], h1, rfl, Or.inr ⟨d, rfl, hde, hp⟩⟩
            | some v =>
              right; right; left
              exact ⟨d, v, rfl, hde, hp, by simp [hde, hp], h1, rfl, rfl⟩

theorem WfStore.get_parses (s : Store) (hwf : WfStore s) (k d : String)
    (h : s.get k = some d) : ∃ v, parseJson d = some v := by
  unfold Store.get at h
  cases hf : s.entries.find? (fun e => e.1 = k) with
  | none =>
    rw [hf] at h
    cases h
  | some e =>
    rw [hf] at h
    have hmem := List.mem_of_find?_eq_some hf
    obtain ⟨v, hv⟩ := hwf e hmem
    injection h with hd
    rw [← hd]
    exact ⟨v, hv⟩

theorem missReached_iff (req : Request) (s : Store) (f : Faults) :
    missReached req s f = true ↔
    (req.method = "GET" ∧ s.isOpen = true ∧ f.getFails = false ∧
      (s.get req.cacheKey = none ∨ s.get req.cacheKey = some "")) := by
  unfold missReached
  cases hg : s.get req.cacheKey with
  | none => simp [and_assoc]
  | some d => simp [and_assoc]

theorem hitReached_iff (req : Request) (s : Store) (f : Faults) :
    hitReached req s f = true ↔
    (req.method = "GET" ∧ s.isOpen = true ∧ f.getFails = false ∧
      ∃ d v, s.get req.cacheKey = some d ∧ d ≠ "" ∧ parseJson d = some v) := by
  unfold hitReached
  cases hg : s.get req.cacheKey with
  | none => simp
  | some d => simp [Option.isSome_iff_exists, and_assoc]

theorem cacheMiddleware_closed (ttl : Nat) (req : Request) (handler : Nat × Jx)
    (es : List (String × String × Nat)) (f : Faults) :
    cacheMiddleware ttl req handler ⟨false, es⟩ f =
      ⟨handler.1, handler.2, ⟨false, es⟩, 1, 0, false⟩ := by
  rcases cacheMiddleware_cases ttl req handler ⟨false, es⟩ f with
    ⟨ho, _⟩ | ⟨_, _, hop, _⟩ | ⟨d, v, _, _, _, _, _, hop, _⟩ | ⟨_, _, hop, _⟩
  · exact ho
  · simp at hop
  · simp at hop
  · simp at hop

theorem createTransactionRun_spec (i : CreateTxInput) :
    ((createTransactionRun i).mutated = true →
      (createTransactionRun i).clears =
        [clearTransactionCachePattern (toString (createTxTarget i)),
         clearAnalyticsCachePattern (toString (createTxTarget i))]) ∧
    ((createTransactionRun i).mutated = false → (createTransactionRun i).clears = []) := by
  unfold createTransactionRun
  split
  · exact ⟨fun h => (nomatch h), fun _ => rfl⟩
  · split
    · exact ⟨fun h => (nomatch h), fun _ => rfl⟩
    · split
      · exact ⟨fun h => (nomatch h), fun _ => rfl⟩
      · split
        · exact ⟨fun h => (nomatch h), fun _ => rfl⟩
        · split
          · exact ⟨fun h => (nomatch h), fun _ => rfl⟩
          · exact ⟨fun _ => rfl, fun h => (nomatch h)⟩

theorem updateTransactionRun_spec (i : UpdateTxInput) :
    ((updateTransactionRun i).mutated = true →
      ∃ owner : Nat, (updateTransactionRun i).clears =
        [clearTransactionCachePattern (toString owner),
         clearAnalyticsCachePattern (toString owner)]) ∧
    ((updateTransactionRun i).mutated = false → (updateTransactionRun i).clears = []) := by
  unfold updateTransactionRun
  split
  · exact ⟨fun h => (nomatch h), fun _ => rfl⟩
  · split
    · exact ⟨fun h => (nomatch h), fun _ => rfl⟩
    · rename_i owner howner
      split
      · exact ⟨fun h => (nomatch h), fun _ => rfl⟩
      · split
        · exact ⟨fun h => (nomatch h), fun _ => rfl⟩
        · split
          · exact ⟨fun h => (nomatch h), fun _ => rfl⟩
          · exact ⟨fun _ => ⟨owner, rfl⟩, fun h => (nomatch h)⟩

theorem deleteTransactionRun_spec (i : DeleteTxInput) :
    ((deleteTransactionRun i).mutated = true →
      ∃ owner : Nat, (deleteTransactionRun i).clears =
        [clearTransactionCachePattern (toString owner),
         clearAnalyticsCachePattern (toString owner)]) ∧
    ((deleteTransactionRun i).mutated = false → (deleteTransactionRun i).clears = []) := by
  unfold deleteTransactionRun
  split
  · exact ⟨fun h => (nomatch h), fun _ => rfl⟩
  · rename_i owner howner
    split
    · exact ⟨fun h => (nomatch h), fun _ => rfl⟩
    · exact ⟨fun _ => ⟨owner, rfl⟩, fun h => (nomatch h)⟩

theorem createTransactionForUserRun_spec (i : AdminCreateTxInput) :
    ((createTransactionForUserRun i).mutated = true →
      (createTransactionForUserRun i).clears =
        [clearTransactionCachePattern (toString i.targetUserId),
         clearAnalyticsCachePattern (toString i.targetUserId)]) ∧
    ((createTransactionForUserRun i).mutated = false →
      (createTransactionForUserRun i).clears = []) := by
  unfold createTransactionForUserRun
  split
  · exact ⟨fun h => (nomatch h), fun _ => rfl⟩
  · split
    · exact ⟨fun h => (nomatch h), fun _ => rfl⟩
    · split
      · exact ⟨fun h => (nomatch h), fun _ => rfl⟩
      · split
        · exact ⟨fun h => (nomatch h), fun _ => rfl⟩
        · split
          · exact ⟨fun h => (nomatch h), fun _ => rfl⟩
          · exact ⟨fun _ => rfl, fun h => (nomatch h)⟩

theorem categoryMutationRun_spec (i : CategoryMutInput) :
    ((categoryMutationRun i).mutated = true →
      (categoryMutationRun i).clears = ["cache:*/categories*"]) ∧
    ((categoryMutationRun i).mutated = false → (categoryMutationRun i).clears = []) := by
  unfold categoryMutationRun
  split
  · exact ⟨fun h => (nomatch h), fun _ => rfl⟩
  · split
    · exact ⟨fun h => (nomatch h), fun _ => rfl⟩
    · exact ⟨fun _ => rfl, fun h => (nomatch h)⟩

theorem createUserRun_no_clears (i : CreateUserInput) : (createUserRun i).clears = [] := by
  obtain ⟨va, du, io⟩ := i
  cases va <;> cases du <;> cases io <;> rfl

theorem updateUserRoleRun_no_clears (i : UpdateRoleInput) :
    (updateUserRoleRun i).clears = [] := by
  obtain ⟨rv, ue, se, uo⟩ := i
  cases rv <;> cases ue <;> cases se <;> cases uo <;> rfl

theorem deleteUserRun_no_clears (i : DeleteUserInput) : (deleteUserRun i).clears = [] := by
  obtain ⟨ue, se, dk⟩ := i
  cases ue <;> cases se <;> cases dk <;> rfl

/-- C7: for every request that is not a pure retrieval (method other than
GET), and for every retrieval request when the key-value store reports
unavailable, cacheMiddleware performs no cache read and no cache write and
invokes the downstream handler directly, delivering its response. -/
theorem claim_C7 (ttl : Nat) (req : Request) (handler : Nat × Jx) (s : Store) (f : Faults)
    (h : req.method ≠ "GET" ∨ s.isOpen = false) :
    (cacheMiddleware ttl req handler s f).store = s ∧
    (cacheMiddleware ttl req handler s f).reads = 0 ∧
    (cacheMiddleware ttl req handler s f).handlerCalls = 1 ∧
    (cacheMiddleware ttl req handler s f).status = handler.1 ∧
    (cacheMiddleware ttl req handler s f).body = handler.2 := by
  rcases cacheMiddleware_cases ttl req handler s f with
    ⟨ho, _⟩ | ⟨ho, hm, hop, _⟩ | ⟨d, v, _, _, _, ho, hm, hop, _⟩ | ⟨ho, hm, hop, _, _⟩
  · rw [ho]
    exact ⟨rfl, rfl, rfl, rfl, rfl⟩
  · rcases h with h | h
    · exact absurd hm h
    · rw [h] at hop
      exact Bool.noConfusion hop
  · rcases h with h | h
    · exact absurd hm h
    · rw [h] at hop
      exact Bool.noConfusion hop
  · rcases h with h | h
    · exact absurd hm h
    · rw [h] at hop
      exact Bool.noConfusion hop

/-- Witness for C7 at a concrete non-GET request on an open store. -/
theorem claim_C7_witness :
    (("POST" : String) ≠ "GET" ∨ (Store.mk true []).isOpen = false) ∧
    ((cacheMiddleware 300 ⟨"POST", "/api/transactions", some (.num 7)⟩ (201, Jx.null)
        ⟨true, []⟩ ⟨false, false⟩).store = ⟨true, []⟩ ∧
     (cacheMiddleware 300 ⟨"POST", "/api/transactions", some (.num 7)⟩ (201, Jx.null)
        ⟨true, []⟩ ⟨false, false⟩).reads = 0 ∧
     (cacheMiddleware 300 ⟨"POST", "/api/transactions", some (.num 7)⟩ (201, Jx.null)
        ⟨true, []⟩ ⟨false, false⟩).handlerCalls = 1 ∧
     (cacheMiddleware 300 ⟨"POST", "/api/transactions", some (.num 7)⟩ (201, Jx.null)
        ⟨true, []⟩ ⟨false, false⟩).status = (201, Jx.null).1 ∧
     (cacheMiddleware 300 ⟨"POST", "/api/transactions", some (.num 7)⟩ (201, Jx.null)
        ⟨true, []⟩ ⟨false, false⟩).body = (201, Jx.null).2) :=
  ⟨Or.inl (by decide),
   claim_C7 300 ⟨"POST", "/api/transactions", some (.num 7)⟩ (201, Jx.null)
     ⟨true, []⟩ ⟨false, false⟩ (Or.inl (by decide))⟩

/-- C5: whenever a cache-related error occurs in a run of cacheMiddleware
(a rejected get, a corrupt cached value, a rejected setEx), the response
still carries the downstream handler's status and payload with exactly
one handler invocation - identical to the run with the store absent
(closed).  No cache error surfaces as a request failure. -/
theorem claim_C5 (ttl : Nat) (req : Request) (handler : Nat × Jx) (s : Store) (f : Faults)
    (h : (cacheMiddleware ttl req handler s f).errored = true) :
    (cacheMiddleware ttl req handler s f).status = handler.1 ∧
    (cacheMiddleware ttl req handler s f).body = handler.2 ∧
    (cacheMiddleware ttl req handler s f).handlerCalls = 1 ∧
    (cacheMiddleware ttl req handler s f).status =
      (cacheMiddleware ttl req handler ⟨false, s.entries⟩ f).status ∧
    (cacheMiddleware ttl req handler s f).body =
      (cacheMiddleware ttl req handler ⟨false, s.entries⟩ f).body := by
  rw [cacheMiddleware_closed]
  rcases cacheMiddleware_cases ttl req handler s f with
    ⟨ho, _⟩ | ⟨ho, _⟩ | ⟨d, v, _, _, _, ho, _⟩ | ⟨ho, _⟩
  · rw [ho] at h
    exact Bool.noConfusion h
  · rw [ho]
    exact ⟨rfl, rfl, rfl, rfl, rfl⟩
  · rw [ho] at h
    exact Bool.noConfusion h
  · rw [ho]
    exact ⟨rfl, rfl, rfl, rfl, rfl⟩

/-- Witness for C5 at a concrete GET whose store get rejects. -/
theorem claim_C5_witness :
    (cacheMiddleware 900 ⟨"GET", "/api/analytics/monthly", some (.num 3)⟩ (200, Jx.null)
        ⟨true, []⟩ ⟨true, false⟩).errored = true ∧
    ((cacheMiddleware 900 ⟨"GET", "/api/analytics/monthly", some (.num 3)⟩ (200, Jx.null)
        ⟨true, []⟩ ⟨true, false⟩).status = (200, Jx.null).1 ∧
     (cacheMiddleware 900 ⟨"GET", "/api/analytics/monthly", some (.num 3)⟩ (200, Jx.null)
        ⟨true, []⟩ ⟨true, false⟩).body = (200, Jx.null).2 ∧
     (cacheMiddleware 900 ⟨"GET", "/api/analytics/monthly", some (.num 3)⟩ (200, Jx.null)
        ⟨true, []⟩ ⟨true, false⟩).handlerCalls = 1 ∧
     (cacheMiddleware 900 ⟨"GET", "/api/analytics/monthly", some (.num 3)⟩ (200, Jx.null)
        ⟨true, []⟩ ⟨true, false⟩).status =
       (cacheMiddleware 900 ⟨"GET", "/api/analytics/monthly", some (.num 3)⟩ (200, Jx.null)
         ⟨false, (Store.mk true []).entries⟩ ⟨true, false⟩).status ∧
     (cacheMiddleware 900 ⟨"GET", "/api/analytics/monthly", some (.num 3)⟩ (200, Jx.null)
        ⟨true, []⟩ ⟨true, false⟩).body =
       (cacheMiddleware 900 ⟨"GET", "/api/analytics/monthly", some (.num 3)⟩ (200, Jx.null)
         ⟨false, (Store.mk true []).entries⟩ ⟨true, false⟩).body) :=
  ⟨by rfl,
   claim_C5 900 ⟨"GET", "/api/analytics/monthly", some (.num 3)⟩ (200, Jx.null)
     ⟨true, []⟩ ⟨true, false⟩ (by rfl)⟩

/-- C10: a cache hit never rewrites the entry or extends its TTL - the
hit branch leaves the store untouched and skips the handler; and the
store changes at all only on the miss path with a successful set, in
which case the change is exactly `setEx key ttl (stringify payload)`, so
an entry's expiry is fixed by its most recent write. -/
theorem claim_C10 (ttl : Nat) (req : Request) (handler : Nat × Jx) (s : Store) (f : Faults) :
    (hitReached req s f = true →
      (cacheMiddleware ttl req handler s f).store = s ∧
      (cacheMiddleware ttl req handler s f).handlerCalls = 0) ∧
    ((cacheMiddleware ttl req handler s f).store ≠ s →
      missReached req s f = true ∧ f.setFails = false ∧
      (cacheMiddleware ttl req handler s f).store =
        s.setEx req.cacheKey ttl (stringify handler.2)) := by
  constructor
  · intro hh
    rw [hitReached_iff] at hh
    obtain ⟨hm, hop, hgf, d, v, hg, hde, hp⟩ := hh
    rcases cacheMiddleware_cases ttl req handler s f with
      ⟨ho, hcond⟩ | ⟨ho, _, _, hcond⟩ | ⟨d', v', hg', hde', hp', ho, _⟩ |
      ⟨ho, _, _, _, hcond⟩
    · rcases hcond with hc | hc
      · exact absurd hm hc
      · rw [hc] at hop
        exact Bool.noConfusion hop
    · rcases hcond with hc | ⟨d'', hg'', hde'', hp''⟩
      · rw [hgf] at hc
        exact Bool.noConfusion hc
      · rw [hg] at hg''
        injection hg'' with hdd
        subst hdd
        rw [hp] at hp''
        exact Option.noConfusion hp''
    · rw [ho]
      exact ⟨rfl, rfl⟩
    · rcases hcond with hc | hc
      · rw [hg] at hc
        exact Option.noConfusion hc
      · rw [hg] at hc
        injection hc with hdd
        exact absurd hdd hde
  · intro hne
    rcases cacheMiddleware_cases ttl req handler s f with
      ⟨ho, _⟩ | ⟨ho, _⟩ | ⟨d, v, _, _, _, ho, _⟩ | ⟨ho, hm, hop, hgf, hget⟩
    · rw [ho] at hne
      exact absurd rfl hne
    · rw [ho] at hne
      exact absurd rfl hne
    · rw [ho] at hne
      exact absurd rfl hne
    · cases hsf : f.setFails with
      | true =>
        rw [ho] at hne
        exact absurd (by simp [missOutcome, hsf]) hne
      | false =>
        refine ⟨(missReached_iff req s f).mpr ⟨hm, hop, hgf, hget⟩, rfl, ?_⟩
        rw [ho]
        simp [missOutcome, hop, hsf]

/-- Witness for C10: a concrete hit run leaves the store unchanged, and a
concrete miss run changes the store exactly by setEx. -/
theorem claim_C10_witness :
    (hitReached ⟨"GET", "/t", none⟩ ⟨true, [("cache:/t:anonymous", stringify Jx.null, 600)]⟩
        ⟨false, false⟩ = true ∧
      ((cacheMiddleware 600 ⟨"GET", "/t", none⟩ (200, Jx.null)
          ⟨true, [("cache:/t:anonymous", stringify Jx.null, 600)]⟩ ⟨false, false⟩).store =
        ⟨true, [("cache:/t:anonymous", stringify Jx.null, 600)]⟩ ∧
       (cacheMiddleware 600 ⟨"GET", "/t", none⟩ (200, Jx.null)
          ⟨true, [("cache:/t:anonymous", stringify Jx.null, 600)]⟩
          ⟨false, false⟩).handlerCalls = 0)) ∧
    (missReached ⟨"GET", "/t", none⟩ ⟨true, []⟩ ⟨false, false⟩ = true ∧
      (⟨false, false⟩ : Faults).setFails = false ∧
      (cacheMiddleware 300 ⟨"GET", "/t", none⟩ (200, Jx.jbool true) ⟨true, []⟩
          ⟨false, false⟩).store =
        Store.setEx ⟨true, []⟩ (Request.cacheKey ⟨"GET", "/t", none⟩) 300
          (stringify (Jx.jbool true))) :=
  ⟨⟨by rfl,
    (claim_C10 600 ⟨"GET", "/t", none⟩ (200, Jx.null)
      ⟨true, [("cache:/t:anonymous", stringify Jx.null, 600)]⟩ ⟨false, false⟩).1 (by rfl)⟩,
   (claim_C10 300 ⟨"GET", "/t", none⟩ (200, Jx.jbool true) ⟨true, []⟩ ⟨false, false⟩).2
     (fun h => List.noConfusion (congrArg Store.entries h))⟩

/-- C9: a request carrying an authenticated principal whose id is falsy
(the number 0 or the empty string) gets its cache key composed with the
literal anonymous sentinel, and the whole middleware run is identical to
the run of an unauthenticated request with the same path and query. -/
theorem claim_C9 (u : String) (v : JsId) (hv : v.falsy = true) :
    cacheKeyOf u (some v) = cacheKeyOf u none ∧
    ∀ (ttl : Nat) (m : String) (handler : Nat × Jx) (s : Store) (f : Faults),
      cacheMiddleware ttl ⟨m, u, some v⟩ handler s f =
      cacheMiddleware ttl ⟨m, u, none⟩ handler s f := by
  have hk : cacheKeyOf u (some v) = cacheKeyOf u none := by
    simp [cacheKeyOf, idPart, hv]
  refine ⟨hk, fun ttl m handler s f => ?_⟩
  show cacheMiddlewareCore ttl m (cacheKeyOf u (some v)) handler s f =
    cacheMiddlewareCore ttl m (cacheKeyOf u none) handler s f
  rw [hk]

/-- Witness for C9 at the principal id 0. -/
theorem claim_C9_witness :
    (JsId.num 0).falsy = true ∧
    (cacheKeyOf "/api/transactions" (some (.num 0)) = cacheKeyOf "/api/transactions" none ∧
     ∀ (ttl : Nat) (m : String) (handler : Nat × Jx) (s : Store) (f : Faults),
       cacheMiddleware ttl ⟨m, "/api/transactions", some (.num 0)⟩ handler s f =
       cacheMiddleware ttl ⟨m, "/api/transactions", none⟩ handler s f) :=
  ⟨by rfl, claim_C9 "/api/transactions" (.num 0) (by rfl)⟩

/-- C1: a retrieval request issued twice in succession with identical
path, query and principal, against an available store holding only
well-formed (middleware-written) entries, with no faults, invalidation or
expiry in between, returns on the second invocation a payload equal to
the first response - hence byte-identical serialization - and does not
invoke the downstream handler. -/
theorem claim_C1 (ttl ttl2 : Nat) (req : Request) (h1 h2 : Nat × Jx) (s : Store)
    (hm : req.method = "GET") (hop : s.isOpen = true) (hwf : WfStore s) :
    (cacheMiddleware ttl2 req h2 (cacheMiddleware ttl req h1 s ⟨false, false⟩).store
        ⟨false, false⟩).body = (cacheMiddleware ttl req h1 s ⟨false, false⟩).body ∧
    (cacheMiddleware ttl2 req h2 (cacheMiddleware ttl req h1 s ⟨false, false⟩).store
        ⟨false, false⟩).handlerCalls = 0 ∧
    stringify (cacheMiddleware ttl2 req h2
        (cacheMiddleware ttl req h1 s ⟨false, false⟩).store ⟨false, false⟩).body =
      stringify (cacheMiddleware ttl req h1 s ⟨false, false⟩).body := by
  rcases cacheMiddleware_cases ttl req h1 s ⟨false, false⟩ with
    ⟨ho, hcond⟩ | ⟨ho, _, _, hcond⟩ | ⟨d, v, hg, hde, hp, ho, _⟩ | ⟨ho, _, _, _, hget⟩
  · rcases hcond with hc | hc
    · exact absurd hm hc
    · rw [hc] at hop
      exact Bool.noConfusion hop
  · rcases hcond with hc | ⟨d, hg, hde, hp⟩
    · exact Bool.noConfusion hc
    · obtain ⟨v, hv⟩ := WfStore.get_parses s hwf req.cacheKey d hg
      rw [hv] at hp
      exact Option.noConfusion hp
  · rw [ho]
    rcases cacheMiddleware_cases ttl2 req h2 s ⟨false, false⟩ with
      ⟨ho2, hcond2⟩ | ⟨ho2, _, _, hcond2⟩ | ⟨d', v', hg', hde', hp', ho2, _⟩ |
      ⟨ho2, _, _, _, hget2⟩
    · rcases hcond2 with hc | hc
      · exact absurd hm hc
      · rw [hc] at hop
        exact Bool.noConfusion hop
    · rcases hcond2 with hc | ⟨d'', hg'', hde'', hp''⟩
      · exact Bool.noConfusion hc
      · rw [hg] at hg''
        injection hg'' with hdd
        subst hdd
        rw [hp] at hp''
        exact Option.noConfusion hp''
    · rw [hg] at hg'
      injection hg' with hdd
      subst hdd
      rw [hp] at hp'
      injection hp' with hvv
      subst hvv
      rw [ho2]
      exact ⟨rfl, rfl, rfl⟩
    · rcases hget2 with hc | hc
      · rw [hg] at hc
        exact Option.noConfusion hc
      · rw [hg] at hc
        injection hc with hdd
        exact absurd hdd hde
  · have hst : (cacheMiddleware ttl req h1 s ⟨false, false⟩).store =
        s.setEx req.cacheKey ttl (stringify h1.2) := by
      rw [ho]
      simp [missOutcome, hop]
    have hbody : (cacheMiddleware ttl req h1 s ⟨false, false⟩).body = h1.2 := by
      rw [ho]
      rfl
    rw [hst, hbody]
    have hg2 : (s.setEx req.cacheKey ttl (stringify h1.2)).get req.cacheKey =
        some (stringify h1.2) := Store.get_setEx_self s req.cacheKey ttl (stringify h1.2)
    rcases cacheMiddleware_cases ttl2 req h2 (s.setEx req.cacheKey ttl (stringify h1.2))
        ⟨false, false⟩ with
      ⟨ho2, hcond2⟩ | ⟨ho2, _, _, hcond2⟩ | ⟨d', v', hg', hde', hp', ho2, _⟩ |
      ⟨ho2, _, _, _, hget2⟩
    · rcases hcond2 with hc | hc
      · exact absurd hm hc
      · rw [Store.setEx_isOpen, hop] at hc
        exact Bool.noConfusion hc
    · rcases hcond2 with hc | ⟨d'', hg'', hde'', hp''⟩
      · exact Bool.noConfusion hc
      · rw [hg2] at hg''
        injection hg'' with hdd
        subst hdd
        rw [parseJson_stringify] at hp''
        exact Option.noConfusion hp''
    · rw [hg2] at hg'
      injection hg' with hdd
      subst hdd
      rw [parseJson_stringify] at hp'
      injection hp' with hvv
      subst hvv
      rw [ho2]
      exact ⟨rfl, rfl, rfl⟩
    · rcases hget2 with hc | hc
      · rw [hg2] at hc
        exact Option.noConfusion hc
      · rw [hg2] at hc
        injection hc with hdd
        exact absurd hdd (stringify_ne_empty h1.2)

/-- Witness for C1: a concrete GET cached then served from the cache. -/
theorem claim_C1_witness :
    (⟨"GET", "/api/categories", some (.num 7)⟩ : Request).method = "GET" ∧
    (Store.mk true []).isOpen = true ∧
    WfStore ⟨true, []⟩ ∧
    ((cacheMiddleware 3600 ⟨"GET", "/api/categories", some (.num 7)⟩ (200, Jx.jbool false)
        (cacheMiddleware 3600 ⟨"GET", "/api/categories", some (.num 7)⟩
          (200, Jx.jstr "cats") ⟨true, []⟩ ⟨false, false⟩).store ⟨false, false⟩).body =
      (cacheMiddleware 3600 ⟨"GET", "/api/categories", some (.num 7)⟩
        (200, Jx.jstr "cats") ⟨true, []⟩ ⟨false, false⟩).body ∧
     (cacheMiddleware 3600 ⟨"GET", "/api/categories", some (.num 7)⟩ (200, Jx.jbool false)
        (cacheMiddleware 3600 ⟨"GET", "/api/categories", some (.num 7)⟩
          (200, Jx.jstr "cats") ⟨true, []⟩ ⟨false, false⟩).store ⟨false, false⟩).handlerCalls
        = 0 ∧
     stringify (cacheMiddleware 3600 ⟨"GET", "/api/categories", some (.num 7)⟩
        (200, Jx.jbool false)
        (cacheMiddleware 3600 ⟨"GET", "/api/categories", some (.num 7)⟩
          (200, Jx.jstr "cats") ⟨true, []⟩ ⟨false, false⟩).store ⟨false, false⟩).body =
       stringify (cacheMiddleware 3600 ⟨"GET", "/api/categories", some (.num 7)⟩
         (200, Jx.jstr "cats") ⟨true, []⟩ ⟨false, false⟩).body) :=
  ⟨rfl, rfl, fun e he => absurd he (by simp),
   claim_C1 3600 3600 ⟨"GET", "/api/categories", some (.num 7)⟩
     (200, Jx.jstr "cats") (200, Jx.jbool false) ⟨true, []⟩ rfl rfl
     (fun e he => absurd he (by simp))⟩

/-- C4 counterexample: the claim "a cache entry is created only on a cache
miss following a successful retrieval" is false - on the getCategory miss
path for an unknown id, the handler finalizes a 404 failure payload
(`success:false`) and the res.json override still stores it: the run
below creates the entry (storing the serialized 404 body) although the
retrieval's status 404 is not a success. -/
theorem claim_C4_counterexample :
    (cacheMiddleware 3600 ⟨"GET", "/api/categories/999", some (.num 7)⟩
        (404, .jobj [("success", .jbool false), ("message", .jstr "Category not found")])
        ⟨true, []⟩ ⟨false, false⟩).store.get
        (Request.cacheKey ⟨"GET", "/api/categories/999", some (.num 7)⟩) =
      some (stringify
        (.jobj [("success", .jbool false), ("message", .jstr "Category not found")])) ∧
    (cacheMiddleware 3600 ⟨"GET", "/api/categories/999", some (.num 7)⟩
        (404, .jobj [("success", .jbool false), ("message", .jstr "Category not found")])
        ⟨true, []⟩ ⟨false, false⟩).status = 404 ∧
    ¬ (cacheMiddleware 3600 ⟨"GET", "/api/categories/999", some (.num 7)⟩
        (404, .jobj [("success", .jbool false), ("message", .jstr "Category not found")])
        ⟨true, []⟩ ⟨false, false⟩).status < 400 := by
  refine ⟨by rfl, by rfl, by decide⟩

/-- C4 amended: a cache entry is created only on a cache miss, regardless
of the retrieval's success - whatever payload the handler finalizes
(including failure payloads) is captured without alteration, delivered to
the caller, and stored as exactly its serialization; on every non-miss
path the store is unchanged. -/
theorem claim_C4 (ttl : Nat) (req : Request) (handler : Nat × Jx) (s : Store) (f : Faults) :
    (missReached req s f = true →
      (cacheMiddleware ttl req handler s f).body = handler.2 ∧
      (cacheMiddleware ttl req handler s f).status = handler.1 ∧
      (cacheMiddleware ttl req handler s f).handlerCalls = 1 ∧
      (f.setFails = false →
        (cacheMiddleware ttl req handler s f).store =
          s.setEx req.cacheKey ttl (stringify handler.2) ∧
        ((cacheMiddleware ttl req handler s f).store).get req.cacheKey =
          some (stringify handler.2)) ∧
      (f.setFails = true → (cacheMiddleware ttl req handler s f).store = s)) ∧
    (missReached req s f = false → (cacheMiddleware ttl req handler s f).store = s) := by
  constructor
  · intro hmr
    rw [missReached_iff] at hmr
    obtain ⟨hm, hop, hgf, hget⟩ := hmr
    rcases cacheMiddleware_cases ttl req handler s f with
      ⟨ho, hcond⟩ | ⟨ho, _, _, hcond⟩ | ⟨d', v', hg', hde', hp', ho, _⟩ |
      ⟨ho, _, _, _, _⟩
    · rcases hcond with hc | hc
      · exact absurd hm hc
      · rw [hc] at hop
        exact Bool.noConfusion hop
    · rcases hcond with hc | ⟨d'', hg'', hde'', hp''⟩
      · rw [hgf] at hc
        exact Bool.noConfusion hc
      · rcases hget with hc | hc
        · rw [hc] at hg''
          exact Option.noConfusion hg''
        · rw [hc] at hg''
          injection hg'' with hdd
          exact absurd hdd.symm hde''
    · rcases hget with hc | hc
      · rw [hc] at hg'
        exact Option.noConfusion hg'
      · rw [hc] at hg'
        injection hg' with hdd
        exact absurd hdd.symm hde'
    · rw [ho]
      refine ⟨rfl, rfl, rfl, ?_, ?_⟩
      · intro hsf
        constructor
        · simp [missOutcome, hop, hsf]
        · have : (missOutcome ttl req.cacheKey handler s f).store =
              s.setEx req.cacheKey ttl (stringify handler.2) := by
            simp [missOutcome, hop, hsf]
          rw [this]
          exact Store.get_setEx_self s req.cacheKey ttl (stringify handler.2)
      · intro hsf
        simp [missOutcome, hsf]
  · intro hmr
    rcases cacheMiddleware_cases ttl req handler s f with
      ⟨ho, _⟩ | ⟨ho, _⟩ | ⟨d', v', _, _, _, ho, _⟩ | ⟨ho, hm, hop, hgf, hget⟩
    · rw [ho]
    · rw [ho]
    · rw [ho]
    · have : missReached req s f = true := (missReached_iff req s f).mpr ⟨hm, hop, hgf, hget⟩
      rw [hmr] at this
      exact Bool.noConfusion this

/-- Witness for C4: a concrete miss that stores the serialized payload,
and a concrete hit-free non-miss (POST) that leaves the store unchanged. -/
theorem claim_C4_witness :
    (missReached ⟨"GET", "/c", none⟩ ⟨true, []⟩ ⟨false, false⟩ = true ∧
      ((cacheMiddleware 60 ⟨"GET", "/c", none⟩ (200, Jx.jnum 5) ⟨true, []⟩
          ⟨false, false⟩).body = (200, Jx.jnum 5).2 ∧
       (cacheMiddleware 60 ⟨"GET", "/c", none⟩ (200, Jx.jnum 5) ⟨true, []⟩
          ⟨false, false⟩).status = (200, Jx.jnum 5).1 ∧
       (cacheMiddleware 60 ⟨"GET", "/c", none⟩ (200, Jx.jnum 5) ⟨true, []⟩
          ⟨false, false⟩).handlerCalls = 1 ∧
       ((⟨false, false⟩ : Faults).setFails = false →
         (cacheMiddleware 60 ⟨"GET", "/c", none⟩ (200, Jx.jnum 5) ⟨true, []⟩
            ⟨false, false⟩).store =
           Store.setEx ⟨true, []⟩ (Request.cacheKey ⟨"GET", "/c", none⟩) 60
             (stringify (200, Jx.jnum 5).2) ∧
         ((cacheMiddleware 60 ⟨"GET", "/c", none⟩ (200, Jx.jnum 5) ⟨true, []⟩
            ⟨false, false⟩).store).get (Request.cacheKey ⟨"GET", "/c", none⟩) =
           some (stringify (200, Jx.jnum 5).2)) ∧
       ((⟨false, false⟩ : Faults).setFails = true →
         (cacheMiddleware 60 ⟨"GET", "/c", none⟩ (200, Jx.jnum 5) ⟨true, []⟩
            ⟨false, false⟩).store = ⟨true, []⟩))) ∧
    (missReached ⟨"POST", "/c", none⟩ ⟨true, []⟩ ⟨false, false⟩ = false ∧
      (cacheMiddleware 60 ⟨"POST", "/c", none⟩ (201, Jx.jnum 5) ⟨true, []⟩
        ⟨false, false⟩).store = ⟨true, []⟩) :=
  ⟨⟨by rfl, ((claim_C4 60 ⟨"GET", "/c", none⟩ (200, Jx.jnum 5) ⟨true, []⟩
      ⟨false, false⟩).1 (by rfl))⟩,
   ⟨by rfl, ((claim_C4 60 ⟨"POST", "/c", none⟩ (201, Jx.jnum 5) ⟨true, []⟩
      ⟨false, false⟩).2 (by rfl))⟩⟩

/-- C2 counterexample: key composition is plain string concatenation with
a colon delimiter that can itself occur in the URL or in a principal id,
so it is not injective - the two distinct request coordinates below
produce the same cache key. -/
theorem claim_C2_counterexample :
    cacheKeyOf "/a:1" (some (.str "2")) = cacheKeyOf "/a" (some (.str "1:2")) ∧
    ("/a:1" : String) ≠ "/a" ∧
    idPart (some (.str "2")) ≠ idPart (some (.str "1:2")) := by
  refine ⟨by rfl, by decide, by decide⟩

/-- C2 amended: the key map is injective exactly on the pairs whose
rendered principal part (the id when truthy, else the anonymous sentinel)
contains no colon: under that proviso, keys are equal iff the path+query
and the rendered principal part are equal - so in particular, identical
inputs give identical keys, and two principals with distinct colon-free
rendered ids requesting the same path+query get different keys. -/
theorem claim_C2 (u1 u2 : String) (i1 i2 : Option JsId)
    (h1 : ':' ∉ (idPart i1).data) (h2 : ':' ∉ (idPart i2).data) :
    (cacheKeyOf u1 i1 = cacheKeyOf u2 i2) ↔ (u1 = u2 ∧ idPart i1 = idPart i2) :=
  cacheKeyOf_inj u1 u2 i1 i2 h1 h2

/-- Witness for C2 at the spec's concrete pair: principals 1 and 2 on the
same path map to different keys. -/
theorem claim_C2_witness :
    ':' ∉ (idPart (some (.str "1"))).data ∧
    ':' ∉ (idPart (some (.str "2"))).data ∧
    ((cacheKeyOf "/api/transactions" (some (.str "1")) =
        cacheKeyOf "/api/transactions" (some (.str "2"))) ↔
      (("/api/transactions" : String) = "/api/transactions" ∧
        idPart (some (.str "1")) = idPart (some (.str "2")))) :=
  ⟨by decide, by decide,
   claim_C2 "/api/transactions" "/api/transactions" (some (.str "1")) (some (.str "2"))
     (by decide) (by decide)⟩

/-- C6 counterexample: `clearCache` deletes the matching keys but returns
`undefined` (modelled `none`) on every path, never the number of keys
deleted that the spec's `deleteMatching(pattern) -> count` requires: on a
store with exactly one matching key the spec-modelled count is 1, and the
function's return value is not that count. -/
theorem claim_C6_counterexample :
    (clearCacheRun ⟨true, [("cache:/api/categories:7", "x", 3600)]⟩ "cache:*").2 = none ∧
    (deleteMatchingSpec ⟨true, [("cache:/api/categories:7", "x", 3600)]⟩ "cache:*").2 = 1 ∧
    (clearCacheRun ⟨true, [("cache:/api/categories:7", "x", 3600)]⟩ "cache:*").2 ≠
      some (deleteMatchingSpec ⟨true, [("cache:/api/categories:7", "x", 3600)]⟩
        "cache:*").2 := by
  refine ⟨by rfl, by rfl, by decide⟩

/-- C6 amended: on an open store, `clearCache` deletes every key matching
the pattern and preserves every non-matching entry; a pattern matching
zero keys is a no-op that leaves the store untouched; the run never
throws (the catch-all swallows store errors, the model is total) - but it
returns no deletion count, only `undefined` (`none`). -/
theorem claim_C6 (s : Store) (pattern : String) (hopen : s.isOpen = true) :
    (clearCacheRun s pattern).2 = none ∧
    (∀ k, globMatchS pattern k = true → ((clearCacheRun s pattern).1).get k = none) ∧
    (∀ e ∈ s.entries, globMatchS pattern e.1 = false →
      e ∈ ((clearCacheRun s pattern).1).entries) ∧
    (s.keysMatching pattern = [] → (clearCacheRun s pattern).1 = s) :=
  ⟨clearCacheRun_returns_none s pattern,
   fun k hk => clearCacheRun_get_matching s pattern k hopen hk,
   fun e he hne => clearCacheRun_entry_preserved s pattern e he hne,
   fun hz => clearCacheRun_zero_matches s pattern hz⟩

/-- Witness for C6 on a concrete open store with one matching and one
non-matching entry. -/
theorem claim_C6_witness :
    (Store.mk true [("cache:/t:1", "a", 60), ("other", "b", 60)]).isOpen = true ∧
    ((clearCacheRun ⟨true, [("cache:/t:1", "a", 60), ("other", "b", 60)]⟩ "cache:*").2 =
        none ∧
     (∀ k, globMatchS "cache:*" k = true →
       ((clearCacheRun ⟨true, [("cache:/t:1", "a", 60), ("other", "b", 60)]⟩
          "cache:*").1).get k = none) ∧
     (∀ e ∈ (Store.mk true [("cache:/t:1", "a", 60), ("other", "b", 60)]).entries,
       globMatchS "cache:*" e.1 = false →
       e ∈ ((clearCacheRun ⟨true, [("cache:/t:1", "a", 60), ("other", "b", 60)]⟩
          "cache:*").1).entries) ∧
     ((Store.mk true [("cache:/t:1", "a", 60), ("other", "b", 60)]).keysMatching "cache:*" =
        [] →
       (clearCacheRun ⟨true, [("cache:/t:1", "a", 60), ("other", "b", 60)]⟩ "cache:*").1 =
         ⟨true, [("cache:/t:1", "a", 60), ("other", "b", 60)]⟩)) :=
  ⟨rfl, claim_C6 ⟨true, [("cache:/t:1", "a", 60), ("other", "b", 60)]⟩ "cache:*" rfl⟩

/-- C8: every cacheMiddleware TTL attached to a cached route follows the
resource-class convention of the spec - transactions list 300s,
single-item lookups 600s, category routes 3600s, analytics aggregates
900s, and user/admin listings within 300-600s. -/
theorem claim_C8 : cachedRoutes.all ttlConventionOk = true := by rfl

/-- C3 counterexample: the invalidation claim fails twice on the code.
deleteUser commits a mutation (cascading the user's transactions) yet
invokes no clear operation at all; and createTransaction for principal 7
invokes only the transaction and analytics domain clears, so a key
matching `cache:*:7` outside those domains (the categories entry below)
is still present afterwards. -/
theorem claim_C3_counterexample :
    (deleteUserRun ⟨true, false, true⟩).mutated = true ∧
    (deleteUserRun ⟨true, false, true⟩).clears = [] ∧
    (createTransactionRun
        ⟨true, 7, "user", none, true, some "expense", "expense", true⟩).mutated = true ∧
    globMatchS "cache:*:7" "cache:/api/categories:7" = true ∧
    (applyClears ⟨true, [("cache:/api/categories:7", "x", 3600)]⟩
        (createTransactionRun
          ⟨true, 7, "user", none, true, some "expense", "expense", true⟩).clears).get
      "cache:/api/categories:7" = some "x" := by
  refine ⟨rfl, rfl, by decide, by decide, by decide⟩

/-- C3 amended: the transaction mutations (create, update, delete, and
the admin create-for-user) invoke exactly the transaction and analytics
clears for the affected user after the mutation commits and none when it
fails; the category mutations invoke exactly the categories-domain clear
after commit and none on failure; the admin user mutations (create user,
update role, delete user) invoke no invalidation at all; and after the
two clears for principal 7 run against an open store, every key matching
the transaction or analytics pattern for principal 7 reads as absent
(other `cache:*:7` keys may survive). -/
theorem claim_C3 :
    (∀ i : CreateTxInput, ((createTransactionRun i).mutated = true →
        (createTransactionRun i).clears =
          [clearTransactionCachePattern (toString (createTxTarget i)),
           clearAnalyticsCachePattern (toString (createTxTarget i))]) ∧
      ((createTransactionRun i).mutated = false → (createTransactionRun i).clears = [])) ∧
    (∀ i : UpdateTxInput, ((updateTransactionRun i).mutated = true →
        ∃ owner : Nat, (updateTransactionRun i).clears =
          [clearTransactionCachePattern (toString owner),
           clearAnalyticsCachePattern (toString owner)]) ∧
      ((updateTransactionRun i).mutated = false → (updateTransactionRun i).clears = [])) ∧
    (∀ i : DeleteTxInput, ((deleteTransactionRun i).mutated = true →
        ∃ owner : Nat, (deleteTransactionRun i).clears =
          [clearTransactionCachePattern (toString owner),
           clearAnalyticsCachePattern (toString owner)]) ∧
      ((deleteTransactionRun i).mutated = false → (deleteTransactionRun i).clears = [])) ∧
    (∀ i : AdminCreateTxInput, ((createTransactionForUserRun i).mutated = true →
        (createTransactionForUserRun i).clears =
          [clearTransactionCachePattern (toString i.targetUserId),
           clearAnalyticsCachePattern (toString i.targetUserId)]) ∧
      ((createTransactionForUserRun i).mutated = false →
        (createTransactionForUserRun i).clears = [])) ∧
    (∀ i : CategoryMutInput, ((categoryMutationRun i).mutated = true →
        (categoryMutationRun i).clears = ["cache:*/categories*"]) ∧
      ((categoryMutationRun i).mutated = false → (categoryMutationRun i).clears = [])) ∧
    (∀ i : CreateUserInput, (createUserRun i).clears = []) ∧
    (∀ i : UpdateRoleInput, (updateUserRoleRun i).clears = []) ∧
    (∀ i : DeleteUserInput, (deleteUserRun i).clears = []) ∧
    (∀ (s : Store), s.isOpen = true → ∀ k,
      (globMatchS (clearTransactionCachePattern "7") k = true ∨
       globMatchS (clearAnalyticsCachePattern "7") k = true) →
      (applyClears s [clearTransactionCachePattern "7",
        clearAnalyticsCachePattern "7"]).get k = none) := by
  refine ⟨createTransactionRun_spec, updateTransactionRun_spec, deleteTransactionRun_spec,
    createTransactionForUserRun_spec, categoryMutationRun_spec, createUserRun_no_clears,
    updateUserRoleRun_no_clears, deleteUserRun_no_clears, ?_⟩
  intro s hopen k hm
  exact applyClears_two_get_none s _ _ k hopen hm

/-- Witness for C3: concrete mutation runs and a concrete invalidation of
a transactions key for principal 7. -/
theorem claim_C3_witness :
    ((createTransactionRun
        ⟨true, 7, "user", none, true, some "expense", "expense", true⟩).mutated = true) ∧
    ((createTransactionRun
        ⟨true, 7, "user", none, true, some "expense", "expense", true⟩).clears =
      [clearTransactionCachePattern (toString (createTxTarget
          ⟨true, 7, "user", none, true, some "expense", "expense", true⟩)),
       clearAnalyticsCachePattern (toString (createTxTarget
          ⟨true, 7, "user", none, true, some "expense", "expense", true⟩))]) ∧
    (deleteUserRun ⟨true, false, true⟩).clears = [] ∧
    (Store.mk true [("cache:/api/transactions:7", "y", 300)]).isOpen = true ∧
    globMatchS (clearTransactionCachePattern "7") "cache:/api/transactions:7" = true ∧
    (applyClears ⟨true, [("cache:/api/transactions:7", "y", 300)]⟩
        [clearTransactionCachePattern "7", clearAnalyticsCachePattern "7"]).get
      "cache:/api/transactions:7" = none :=
  ⟨by decide,
   (claim_C3.1 ⟨true, 7, "user", none, true, some "expense", "expense", true⟩).1 (by decide),
   claim_C3.2.2.2.2.2.2.2.1 ⟨true, false, true⟩,
   rfl,
   by decide,
   claim_C3.2.2.2.2.2.2.2.2 ⟨true, [("cache:/api/transactions:7", "y", 300)]⟩ rfl
     "cache:/api/transactions:7" (Or.inl (by decide))⟩
